import Mathlib

/-
Verification of the Verific-frontend importer (frontends/verific/verific.cc)
against its natural-language specification.

The embedding models the Verific-side data (nets, instances, netlists) and the
RTLIL-side data (wires, cells, memories) as plain Lean structures, and each
source function relevant to the claims as an executable Lean function.  Fatal
conditions (log_error / log_cmd_error / log_assert, all declared noreturn in
kernel/log.h) are modelled by Except.error; module state is passed explicitly.
-/

deriving instance DecidableEq for Except

namespace VerificImport

/-- RTLIL bit states (RTLIL::State): constant 0, constant 1, undefined X,
high-impedance Z. -/
inductive BitState
| S0 | S1 | Sx | Sz
deriving DecidableEq, Repr

/-- A Verific net handle (Net*).  Object identity is the whole record; `owner`
is the identity of the owning Netlist (Net::Owner()), `isGnd` / `isPwr` model
Net::IsGnd() / Net::IsPwr(). -/
structure Net where
  id : Nat
  name : String
  owner : Nat
  isGnd : Bool
  isPwr : Bool
deriving DecidableEq, Repr

/-- One RTLIL signal bit (RTLIL::SigBit): a constant state or one bit of a
wire, identified by the wire id and a bit offset. -/
inductive SigBit
| const (s : BitState)
| wire (w : Nat) (offset : Nat)
deriving DecidableEq, Repr

/-- RTLIL::SigSpec, modelled as the LSB-first list of its bits. -/
abbrev SigSpec := List SigBit

/-- The RTLIL cell kinds produced by the importer.  `c...` constructors are the
word-level cells of cell mode, `g...` the bit-level gates of gate mode. -/
inductive CellType
| cAnd | cOr | cNot | cXor | cXnor | cMux | cAdd | cSub | cNeg | cMul
| cDiv | cMod | cShl | cShr | cSshr
| cReduceAnd | cReduceOr | cReduceXor | cReduceXnor
| cLt | cLe | cEq | cNe | cPos
| cDff | cDffsr | cDlatch | cDlatchsr | cAdff (arstValue : BitState)
| gAnd | gOr | gNot | gXor | gXnor | gBuf | gMux
| gDff | gDffsr | gAdff (arstPolarity : Bool)
| cAssert | cAssume | cCover
deriving DecidableEq, Repr

/-- An RTLIL cell as the importer creates it.  `typed` covers the add* helper
calls (name is none for NEW_ID cells, connections are positional); `box` is the
opaque placeholder cell for an untranslated instance; the mem* constructors
model the $meminit / $memrd / $memwr cells with the parameters the importer
sets. -/
inductive Cell
| typed (name : Option String) (ctype : CellType) (signed : Bool) (conns : List SigSpec)
| box (name : String) (typeName : String) (conns : List (String × SigSpec))
| meminit (addr : Nat) (data : List BitState) (memid : String) (width : Nat)
| memrd (name : String) (memid : String) (abits : Nat) (width : Nat) (addr : SigSpec) (data : SigSpec)
| memwr (name : String) (memid : String) (clkEnable : Bool) (abits : Nat) (width : Nat)
    (en : SigSpec) (clk : SigSpec) (addr : SigSpec) (data : SigSpec)
deriving DecidableEq, Repr

/-- RTLIL::Memory: name plus the derived word width and word count. -/
structure Memory where
  name : String
  width : Nat
  size : Nat
deriving DecidableEq, Repr

/-- The RTLIL module under construction: a fresh-id counter for NEW_ID wires,
the wires (id, width), cells, direct connections, memories and per-wire init
attributes. -/
structure RModule where
  nextId : Nat
  wires : List (Nat × Nat)
  cells : List Cell
  conns : List (SigSpec × SigSpec)
  memories : List (String × Memory)
  initAttrs : List (Nat × List BitState)
deriving DecidableEq, Repr

/-- The empty module, as created at the top of import_netlist. -/
def emptyModule : RModule :=
  { nextId := 0, wires := [], cells := [], conns := [], memories := [], initAttrs := [] }

/-- Association-list lookup keyed by decidable equality (std::map / dict
lookup). -/
def alookup {α β : Type} [DecidableEq α] : List (α × β) → α → Option β
| [], _ => none
| (a, b) :: rest, x => if a = x then some b else alookup rest x

/-- module->addWire(NEW_ID, width): returns the fresh wire id and the updated
module. -/
def addWire (m : RModule) (width : Nat) : Nat × RModule :=
  (m.nextId, { m with nextId := m.nextId + 1, wires := m.wires ++ [(m.nextId, width)] })

/-- Current width of a wire (0 when absent). -/
def wire_width (m : RModule) (w : Nat) : Nat :=
  (alookup m.wires w).getD 0

/-- dummy_wire->width++ of operatorOutput: widen an existing wire by one bit. -/
def widen_wire (m : RModule) (w : Nat) : RModule :=
  { m with wires := m.wires.map (fun p => if p.1 = w then (p.1, p.2 + 1) else p) }

/-- Append a cell to the module. -/
def addCell (m : RModule) (c : Cell) : RModule :=
  { m with cells := m.cells ++ [c] }

/-- module->connect(a, b). -/
def addConn (m : RModule) (a b : SigSpec) : RModule :=
  { m with conns := m.conns ++ [(a, b)] }

/-- RTLIL::escape_id for the names this importer feeds it (public RTLIL names
get a backslash prefix); the exact RTLIL definition lives outside this
repository, and the claims only use that it is a fixed deterministic renaming. -/
def escape_id (s : String) : String :=
  String.mk ('\\' :: s.data)

/-- The Verific instance type tags referenced by this source file.
`PRIM_UNKNOWN` stands for the remaining tags of the closed Verific enumeration
that this file never mentions (and hence never translates). -/
inductive InstType
| PRIM_AND | PRIM_NAND | PRIM_OR | PRIM_NOR | PRIM_XOR | PRIM_XNOR
| PRIM_BUF | PRIM_INV | PRIM_MUX | PRIM_TRI | PRIM_FADD
| PRIM_DFFRS | PRIM_DLATCHRS
| OPER_ADDER | OPER_MULTIPLIER | OPER_DIVIDER | OPER_MODULO | OPER_REMAINDER
| OPER_SHIFT_LEFT | OPER_ENABLED_DECODER | OPER_DECODER | OPER_SHIFT_RIGHT
| OPER_REDUCE_AND | OPER_REDUCE_OR | OPER_REDUCE_XOR | OPER_REDUCE_XNOR
| OPER_LESSTHAN
| OPER_WIDE_AND | OPER_WIDE_OR | OPER_WIDE_XOR | OPER_WIDE_XNOR
| OPER_WIDE_BUF | OPER_WIDE_INV | OPER_MINUS | OPER_UMINUS
| OPER_EQUAL | OPER_NEQUAL | OPER_WIDE_MUX | OPER_WIDE_TRI | OPER_WIDE_DFFRS
| OPER_READ_PORT | OPER_WRITE_PORT | OPER_CLOCKED_WRITE_PORT
| PRIM_SVA_POSEDGE | PRIM_SVA_AT
| PRIM_SVA_IMMEDIATE_ASSERT | PRIM_SVA_ASSERT
| PRIM_SVA_IMMEDIATE_ASSUME | PRIM_SVA_ASSUME
| PRIM_SVA_IMMEDIATE_COVER | PRIM_SVA_COVER
| PRIM_PWR | PRIM_GND | PRIM_X | PRIM_Z
| PRIM_UNKNOWN
deriving DecidableEq, Repr

/-- The fatal conditions raised by the modelled code paths (every constructor
corresponds to one log_error / log_cmd_error / log_assert site, or to a C++
failure the model makes explicit: a null single-port net dereference, or a
std::map::at miss). -/
inductive TErr
| externalRef (netOwner : Nat) (netName : String) (importing : Nat)
| mapMissing
| nullPort
| unsupportedPattern (instName : String)
| unsupportedLessthan (instName : String)
| unsupportedPrimitive (instName : String) (typeName : String)
| ramBadInstance (netName : String) (typeName : String) (instName : String)
| asymmetricMemory (instName : String) (netName : String)
| assertFailed
| redefinition (moduleName : String)
deriving DecidableEq, Repr

/-- One port connection of an untranslated instance as seen by
FOREACH_PORTREF_OF_INST: the (bus) port name, the bit offset inside the bus
(IndexOf(port) - min(LeftIndex, RightIndex), 0 for scalar ports) and the
connected net. -/
structure PortRefConn where
  pname : String
  offset : Nat
  net : Net
deriving DecidableEq, Repr

/-- A named port or port bus of an operator view, as operatorInport reads it:
either the ordered element nets of a PortBus (none for unconnected elements) or
the net of a scalar Port. -/
inductive Inport
| bus (elems : List (Option Net))
| single (net : Option Net)
deriving DecidableEq, Repr

/-- A Verific Instance as this importer reads it: the type tag, names, the
View()'s signedness / identity / class flags, the single-net port getters
(GetInput, GetInput1, ..., GetCout; none models a null pointer), the per-bit
port getters (GetInputBit i etc., indexed from 0), the set/reset inports of
OPER_WIDE_DFFRS, and the raw port references used for placeholder cells. -/
structure Instance where
  itype : InstType
  name : String
  viewOwnerName : String
  viewIsSigned : Bool
  viewId : Nat
  isPrimitive : Bool
  isOperator : Bool
  input : Option Net
  input1 : Option Net
  input2 : Option Net
  control : Option Net
  clock : Option Net
  set : Option Net
  reset : Option Net
  cin : Option Net
  cout : Option Net
  output : Option Net
  inputBits : List (Option Net)
  input1Bits : List (Option Net)
  input2Bits : List (Option Net)
  outputBits : List (Option Net)
  setPort : Inport
  resetPort : Inport
  portRefs : List PortRefConn
deriving DecidableEq, Repr

/-- A fully disconnected instance, used as the base record for concrete test
instances. -/
def instBase : Instance :=
  { itype := InstType.PRIM_UNKNOWN, name := "", viewOwnerName := "", viewIsSigned := false,
    viewId := 0, isPrimitive := false, isOperator := false,
    input := none, input1 := none, input2 := none, control := none, clock := none,
    set := none, reset := none, cin := none, cout := none, output := none,
    inputBits := [], input1Bits := [], input2Bits := [], outputBits := [],
    setPort := Inport.bus [], resetPort := Inport.bus [], portRefs := [] }

/-- VerificImporter::net_map_at (the Signal Mapper resolve operation).
`netlist` is the identity of the Netlist under import and `net_map` the
per-import mapping.  A net whose owner is not the importing netlist
(Net::IsExternalTo) is a fatal error whose payload carries the net's true
owner, the net's name and the importing netlist — the data log_error formats
into the message; otherwise the mapped bit is returned (net_map.at). -/
def net_map_at (netlist : Nat) (net_map : List (Net × SigBit)) (net : Net) :
    Except TErr SigBit :=
  if net.owner ≠ netlist then
    Except.error (TErr.externalRef net.owner net.name netlist)
  else
    match alookup net_map net with
    | some b => Except.ok b
    | none => Except.error TErr.mapMissing

/-- Dereference a single-net port getter the C++ uses without a null check. -/
def reqNet : Option Net → Except TErr Net
| some n => Except.ok n
| none => Except.error TErr.nullPort

/-- net_map_at applied to a single-net port getter. -/
def nmOf (nm : Net → Except TErr SigBit) (onet : Option Net) : Except TErr SigBit :=
  reqNet onet >>= nm

/-- One bit of operatorInput/operatorInput1/operatorInput2: a connected bit is
resolved through the net map, an unconnected bit becomes constant Z
(RTLIL::State::Sz). -/
def mapNetBit (nm : Net → Except TErr SigBit) : Option Net → Except TErr SigBit
| some n => nm n
| none => Except.ok (SigBit.const BitState.Sz)

/-- The shared loop body of operatorInput/operatorInput1/operatorInput2: the
argument list is already in iteration order (bit index InputSize()-1 down
to 0), each element is appended in turn. -/
def operator_bits (nm : Net → Except TErr SigBit) :
    List (Option Net) → Except TErr SigSpec
| [] => Except.ok []
| ob :: rest => do
    let bit ← mapNetBit nm ob
    let tail ← operator_bits nm rest
    Except.ok (bit :: tail)

/-- VerificImporter::operatorInput: iterate GetInputBit from the top bit down. -/
def operatorInput (nm : Net → Except TErr SigBit) (inst : Instance) :
    Except TErr SigSpec :=
  operator_bits nm inst.inputBits.reverse

/-- VerificImporter::operatorInput1. -/
def operatorInput1 (nm : Net → Except TErr SigBit) (inst : Instance) :
    Except TErr SigSpec :=
  operator_bits nm inst.input1Bits.reverse

/-- VerificImporter::operatorInput2. -/
def operatorInput2 (nm : Net → Except TErr SigBit) (inst : Instance) :
    Except TErr SigSpec :=
  operator_bits nm inst.input2Bits.reverse

/-- Instance::GetInput1Bit(i) (none when the bit is unconnected or out of
range). -/
def getInput1Bit (inst : Instance) (i : Nat) : Option Net :=
  (inst.input1Bits.get? i).join

/-- One element of an operatorInport port bus: unconnected elements become Z,
ground and power nets become constants 0 and 1, other nets are resolved. -/
def inportBit (nm : Net → Except TErr SigBit) : Option Net → Except TErr SigBit
| some n =>
    if n.isGnd then Except.ok (SigBit.const BitState.S0)
    else if n.isPwr then Except.ok (SigBit.const BitState.S1)
    else nm n
| none => Except.ok (SigBit.const BitState.Sz)

/-- VerificImporter::operatorInport: a PortBus is read element by element in
index order; a scalar Port resolves its net unconditionally (a null net there
is the std::map::at failure of the C++). -/
def operatorInport (nm : Net → Except TErr SigBit) : Inport → Except TErr SigSpec
| Inport.bus elems => elems.mapM (inportBit nm)
| Inport.single onet =>
    match onet with
    | some n => do
        let b ← nm n
        Except.ok [b]
    | none => Except.error TErr.mapMissing

/-- SigSpec::is_fully_const: every bit is a constant. -/
def is_fully_const (s : SigSpec) : Bool :=
  s.all (fun b => match b with | SigBit.const _ => true | SigBit.wire _ _ => false)

/-- SigSpec::as_bool on a constant signal: true iff some bit is constant 1. -/
def as_bool (s : SigSpec) : Bool :=
  s.any (fun b => decide (b = SigBit.const BitState.S1))

/-- The loop body of VerificImporter::operatorOutput, over the output bits in
iteration order (bit index OutputSize()-1 down to 0).  `dummy` is the current
dummy wire (NULL between runs): a connected bit resets it, the first bit of an
unconnected run allocates a fresh 1-bit wire, and each further unconnected bit
widens that wire by one and uses its new top bit. -/
def operator_output_bits (nm : Net → Except TErr SigBit) :
    RModule → Option Nat → List (Option Net) → Except TErr (SigSpec × RModule)
| m, _, [] => Except.ok ([], m)
| m, dummy, ob :: rest =>
  match ob with
  | some n => do
      let bit ← nm n
      let (tail, m') ← operator_output_bits nm m none rest
      Except.ok (bit :: tail, m')
  | none =>
    match dummy with
    | none =>
        let (w, m1) := addWire m 1
        do
          let (tail, m') ← operator_output_bits nm m1 (some w) rest
          Except.ok (SigBit.wire w 0 :: tail, m')
    | some w =>
        let m1 := widen_wire m w
        do
          let (tail, m') ← operator_output_bits nm m1 (some w) rest
          Except.ok (SigBit.wire w (wire_width m1 w - 1) :: tail, m')

/-- VerificImporter::operatorOutput. -/
def operatorOutput (nm : Net → Except TErr SigBit) (inst : Instance)
    (m : RModule) : Except TErr (SigSpec × RModule) :=
  operator_output_bits nm m none inst.outputBits.reverse

/-- Pure mirror of operator_output_bits used to reason about the dummy-wire
runs: `base` is the next fresh wire id and `dummy` carries the current run's
wire together with its next bit offset. -/
def out_bits_pure (f : Net → SigBit) :
    Nat → Option (Nat × Nat) → List (Option Net) → SigSpec
| _, _, [] => []
| base, _, some n :: rest => f n :: out_bits_pure f base none rest
| base, none, none :: rest =>
    SigBit.wire base 0 :: out_bits_pure f (base + 1) (some (base, 1)) rest
| base, some (w, k), none :: rest =>
    SigBit.wire w k :: out_bits_pure f base (some (w, k + 1)) rest

/-- One registration step of the net mapping: the scalar-port loop of
import_netlist (a net seen for the first time is bound to the port wire;
a net already in the map instead gets a connection whose direction depends on
the port direction), and the net-bus loop (already-mapped nets connect the new
wire bit to the existing signal). -/
inductive RegStep
| port (net : Net) (bit : SigBit) (isInput : Bool)
| busnet (net : Net) (bit : SigBit)
deriving DecidableEq, Repr

/-- The per-import registration state: the net map and the module connection
list. -/
structure RegSt where
  net_map : List (Net × SigBit)
  conns : List (SigSpec × SigSpec)
deriving DecidableEq, Repr

/-- Apply one registration step (import_netlist lines for ports, port-bus bits
and net-bus bits): absent nets extend the map, present nets leave the map
unchanged and emit one connection through net_map_at. -/
def applyRegStep (nl : Nat) (st : RegSt) : RegStep → Except TErr RegSt
| RegStep.port net bit isInput =>
    if alookup st.net_map net = none then
      Except.ok { st with net_map := st.net_map ++ [(net, bit)] }
    else do
      let b ← net_map_at nl st.net_map net
      if isInput then
        Except.ok { st with conns := st.conns ++ [([b], [bit])] }
      else
        Except.ok { st with conns := st.conns ++ [([bit], [b])] }
| RegStep.busnet net bit =>
    if alookup st.net_map net = none then
      Except.ok { st with net_map := st.net_map ++ [(net, bit)] }
    else do
      let b ← net_map_at nl st.net_map net
      Except.ok { st with conns := st.conns ++ [([bit], [b])] }

/-- Apply a sequence of registration steps. -/
def applyRegSteps (nl : Nat) : RegSt → List RegStep → Except TErr RegSt
| st, [] => Except.ok st
| st, s :: rest => do
    let st' ← applyRegStep nl st s
    applyRegSteps nl st' rest

/-- VerificImporter::import_netlist_instance_gates: the bit-blasted gate-mode
translation table.  Returns (false, unchanged module) when the instance type is
not in the table. -/
def import_netlist_instance_gates (nm : Net → Except TErr SigBit)
    (inst : Instance) (m : RModule) : Except TErr (Bool × RModule) :=
  if inst.itype = InstType.PRIM_AND then do
    let a ← nmOf nm inst.input1
    let b ← nmOf nm inst.input2
    let y ← nmOf nm inst.output
    Except.ok (true, addCell m (Cell.typed (some (escape_id inst.name)) CellType.gAnd false [[a], [b], [y]]))
  else if inst.itype = InstType.PRIM_NAND then do
    let (t, m1) := addWire m 1
    let a ← nmOf nm inst.input1
    let b ← nmOf nm inst.input2
    let y ← nmOf nm inst.output
    let m2 := addCell m1 (Cell.typed none CellType.gAnd false [[a], [b], [SigBit.wire t 0]])
    Except.ok (true, addCell m2 (Cell.typed (some (escape_id inst.name)) CellType.gNot false [[SigBit.wire t 0], [y]]))
  else if inst.itype = InstType.PRIM_OR then do
    let a ← nmOf nm inst.input1
    let b ← nmOf nm inst.input2
    let y ← nmOf nm inst.output
    Except.ok (true, addCell m (Cell.typed (some (escape_id inst.name)) CellType.gOr false [[a], [b], [y]]))
  else if inst.itype = InstType.PRIM_NOR then do
    let (t, m1) := addWire m 1
    let a ← nmOf nm inst.input1
    let b ← nmOf nm inst.input2
    let y ← nmOf nm inst.output
    let m2 := addCell m1 (Cell.typed none CellType.gOr false [[a], [b], [SigBit.wire t 0]])
    Except.ok (true, addCell m2 (Cell.typed (some (escape_id inst.name)) CellType.gNot false [[SigBit.wire t 0], [y]]))
  else if inst.itype = InstType.PRIM_XOR then do
    let a ← nmOf nm inst.input1
    let b ← nmOf nm inst.input2
    let y ← nmOf nm inst.output
    Except.ok (true, addCell m (Cell.typed (some (escape_id inst.name)) CellType.gXor false [[a], [b], [y]]))
  else if inst.itype = InstType.PRIM_XNOR then do
    let a ← nmOf nm inst.input1
    let b ← nmOf nm inst.input2
    let y ← nmOf nm inst.output
    Except.ok (true, addCell m (Cell.typed (some (escape_id inst.name)) CellType.gXnor false [[a], [b], [y]]))
  else if inst.itype = InstType.PRIM_BUF then do
    let a ← nmOf nm inst.input
    let y ← nmOf nm inst.output
    Except.ok (true, addCell m (Cell.typed (some (escape_id inst.name)) CellType.gBuf false [[a], [y]]))
  else if inst.itype = InstType.PRIM_INV then do
    let a ← nmOf nm inst.input
    let y ← nmOf nm inst.output
    Except.ok (true, addCell m (Cell.typed (some (escape_id inst.name)) CellType.gNot false [[a], [y]]))
  else if inst.itype = InstType.PRIM_MUX then do
    let a ← nmOf nm inst.input1
    let b ← nmOf nm inst.input2
    let s ← nmOf nm inst.control
    let y ← nmOf nm inst.output
    Except.ok (true, addCell m (Cell.typed (some (escape_id inst.name)) CellType.gMux false [[a], [b], [s], [y]]))
  else if inst.itype = InstType.PRIM_TRI then do
    let a ← nmOf nm inst.input
    let s ← nmOf nm inst.control
    let y ← nmOf nm inst.output
    Except.ok (true, addCell m (Cell.typed (some (escape_id inst.name)) CellType.gMux false [[SigBit.const BitState.Sz], [a], [s], [y]]))
  else if inst.itype = InstType.PRIM_FADD then do
    let a ← nmOf nm inst.input1
    let b ← nmOf nm inst.input2
    let c ← nmOf nm inst.cin
    let (x, m1) ← (match inst.cout with
      | some n => do
          let xb ← nm n
          Except.ok (xb, m)
      | none =>
          let (w, m') := addWire m 1
          Except.ok (SigBit.wire w 0, m'))
    let (y, m2) ← (match inst.output with
      | some n => do
          let yb ← nm n
          Except.ok (yb, m1)
      | none =>
          let (w, m') := addWire m1 1
          Except.ok (SigBit.wire w 0, m'))
    let (t1, m3) := addWire m2 1
    let (t2, m4) := addWire m3 1
    let (t3, m5) := addWire m4 1
    let m6 := addCell m5 (Cell.typed none CellType.gXor false [[a], [b], [SigBit.wire t1 0]])
    let m7 := addCell m6 (Cell.typed (some (escape_id inst.name)) CellType.gXor false [[SigBit.wire t1 0], [c], [y]])
    let m8 := addCell m7 (Cell.typed none CellType.gAnd false [[SigBit.wire t1 0], [c], [SigBit.wire t2 0]])
    let m9 := addCell m8 (Cell.typed none CellType.gAnd false [[a], [b], [SigBit.wire t3 0]])
    Except.ok (true, addCell m9 (Cell.typed none CellType.gOr false [[SigBit.wire t2 0], [SigBit.wire t3 0], [x]]))
  else if inst.itype = InstType.PRIM_DFFRS then do
    let s ← reqNet inst.set
    let r ← reqNet inst.reset
    if s.isGnd ∧ r.isGnd then do
      let c ← nmOf nm inst.clock
      let d ← nmOf nm inst.input
      let q ← nmOf nm inst.output
      Except.ok (true, addCell m (Cell.typed (some (escape_id inst.name)) CellType.gDff false [[c], [d], [q]]))
    else if s.isGnd then do
      let c ← nmOf nm inst.clock
      let rb ← nm r
      let d ← nmOf nm inst.input
      let q ← nmOf nm inst.output
      Except.ok (true, addCell m (Cell.typed (some (escape_id inst.name)) (CellType.gAdff false) false [[c], [rb], [d], [q]]))
    else if r.isGnd then do
      let c ← nmOf nm inst.clock
      let sb ← nm s
      let d ← nmOf nm inst.input
      let q ← nmOf nm inst.output
      Except.ok (true, addCell m (Cell.typed (some (escape_id inst.name)) (CellType.gAdff true) false [[c], [sb], [d], [q]]))
    else do
      let c ← nmOf nm inst.clock
      let sb ← nm s
      let rb ← nm r
      let d ← nmOf nm inst.input
      let q ← nmOf nm inst.output
      Except.ok (true, addCell m (Cell.typed (some (escape_id inst.name)) CellType.gDffsr false [[c], [sb], [rb], [d], [q]]))
  else
    Except.ok (false, m)

/-- VerificImporter::import_netlist_instance_cells: the word-level cell-mode
translation table, branch for branch in source order.  Returns
(false, unchanged module) when the instance type is not in the table; the
structural-precondition violations of OPER_SHIFT_RIGHT and OPER_LESSTHAN are
the fatal log_error calls of the source. -/
def import_netlist_instance_cells (nm : Net → Except TErr SigBit)
    (inst : Instance) (m : RModule) : Except TErr (Bool × RModule) :=
  if inst.itype = InstType.PRIM_AND then do
    let a ← nmOf nm inst.input1
    let b ← nmOf nm inst.input2
    let y ← nmOf nm inst.output
    Except.ok (true, addCell m (Cell.typed (some (escape_id inst.name)) CellType.cAnd false [[a], [b], [y]]))
  else if inst.itype = InstType.PRIM_NAND then do
    let (t, m1) := addWire m 1
    let a ← nmOf nm inst.input1
    let b ← nmOf nm inst.input2
    let y ← nmOf nm inst.output
    let m2 := addCell m1 (Cell.typed none CellType.cAnd false [[a], [b], [SigBit.wire t 0]])
    Except.ok (true, addCell m2 (Cell.typed (some (escape_id inst.name)) CellType.cNot false [[SigBit.wire t 0], [y]]))
  else if inst.itype = InstType.PRIM_OR then do
    let a ← nmOf nm inst.input1
    let b ← nmOf nm inst.input2
    let y ← nmOf nm inst.output
    Except.ok (true, addCell m (Cell.typed (some (escape_id inst.name)) CellType.cOr false [[a], [b], [y]]))
  else if inst.itype = InstType.PRIM_NOR then do
    let (t, m1) := addWire m 1
    let a ← nmOf nm inst.input1
    let b ← nmOf nm inst.input2
    let y ← nmOf nm inst.output
    let m2 := addCell m1 (Cell.typed none CellType.cOr false [[a], [b], [SigBit.wire t 0]])
    Except.ok (true, addCell m2 (Cell.typed (some (escape_id inst.name)) CellType.cNot false [[SigBit.wire t 0], [y]]))
  else if inst.itype = InstType.PRIM_XOR then do
    let a ← nmOf nm inst.input1
    let b ← nmOf nm inst.input2
    let y ← nmOf nm inst.output
    Except.ok (true, addCell m (Cell.typed (some (escape_id inst.name)) CellType.cXor false [[a], [b], [y]]))
  else if inst.itype = InstType.PRIM_XNOR then do
    let a ← nmOf nm inst.input1
    let b ← nmOf nm inst.input2
    let y ← nmOf nm inst.output
    Except.ok (true, addCell m (Cell.typed (some (escape_id inst.name)) CellType.cXnor false [[a], [b], [y]]))
  else if inst.itype = InstType.PRIM_INV then do
    let a ← nmOf nm inst.input
    let y ← nmOf nm inst.output
    Except.ok (true, addCell m (Cell.typed (some (escape_id inst.name)) CellType.cNot false [[a], [y]]))
  else if inst.itype = InstType.PRIM_MUX then do
    let a ← nmOf nm inst.input1
    let b ← nmOf nm inst.input2
    let s ← nmOf nm inst.control
    let y ← nmOf nm inst.output
    Except.ok (true, addCell m (Cell.typed (some (escape_id inst.name)) CellType.cMux false [[a], [b], [s], [y]]))
  else if inst.itype = InstType.PRIM_TRI then do
    let a ← nmOf nm inst.input
    let s ← nmOf nm inst.control
    let y ← nmOf nm inst.output
    Except.ok (true, addCell m (Cell.typed (some (escape_id inst.name)) CellType.cMux false [[SigBit.const BitState.Sz], [a], [s], [y]]))
  else if inst.itype = InstType.PRIM_FADD then do
    let (ab, m1) := addWire m 2
    let (y0, m2) ← (match inst.output with
      | some n => do
          let yb ← nm n
          Except.ok (yb, m1)
      | none =>
          let (w, m') := addWire m1 1
          Except.ok (SigBit.wire w 0, m'))
    let y ← (match inst.cout with
      | some n => do
          let cb ← nm n
          Except.ok [y0, cb]
      | none => Except.ok [y0])
    let a ← nmOf nm inst.input1
    let b ← nmOf nm inst.input2
    let c ← nmOf nm inst.cin
    let m3 := addCell m2 (Cell.typed none CellType.cAdd false [[a], [b], [SigBit.wire ab 0, SigBit.wire ab 1]])
    Except.ok (true, addCell m3 (Cell.typed (some (escape_id inst.name)) CellType.cAdd false [[SigBit.wire ab 0, SigBit.wire ab 1], [c], y]))
  else if inst.itype = InstType.PRIM_DFFRS then do
    let s ← reqNet inst.set
    let r ← reqNet inst.reset
    if s.isGnd ∧ r.isGnd then do
      let c ← nmOf nm inst.clock
      let d ← nmOf nm inst.input
      let q ← nmOf nm inst.output
      Except.ok (true, addCell m (Cell.typed (some (escape_id inst.name)) CellType.cDff false [[c], [d], [q]]))
    else if s.isGnd then do
      let c ← nmOf nm inst.clock
      let rb ← nm r
      let d ← nmOf nm inst.input
      let q ← nmOf nm inst.output
      Except.ok (true, addCell m (Cell.typed (some (escape_id inst.name)) (CellType.cAdff BitState.S0) false [[c], [rb], [d], [q]]))
    else if r.isGnd then do
      let c ← nmOf nm inst.clock
      let sb ← nm s
      let d ← nmOf nm inst.input
      let q ← nmOf nm inst.output
      Except.ok (true, addCell m (Cell.typed (some (escape_id inst.name)) (CellType.cAdff BitState.S1) false [[c], [sb], [d], [q]]))
    else do
      let c ← nmOf nm inst.clock
      let sb ← nm s
      let rb ← nm r
      let d ← nmOf nm inst.input
      let q ← nmOf nm inst.output
      Except.ok (true, addCell m (Cell.typed (some (escape_id inst.name)) CellType.cDffsr false [[c], [sb], [rb], [d], [q]]))
  else if inst.itype = InstType.PRIM_DLATCHRS then do
    let s ← reqNet inst.set
    let r ← reqNet inst.reset
    if s.isGnd ∧ r.isGnd then do
      let e ← nmOf nm inst.control
      let d ← nmOf nm inst.input
      let q ← nmOf nm inst.output
      Except.ok (true, addCell m (Cell.typed (some (escape_id inst.name)) CellType.cDlatch false [[e], [d], [q]]))
    else do
      let e ← nmOf nm inst.control
      let sb ← nm s
      let rb ← nm r
      let d ← nmOf nm inst.input
      let q ← nmOf nm inst.output
      Except.ok (true, addCell m (Cell.typed (some (escape_id inst.name)) CellType.cDlatchsr false [[e], [sb], [rb], [d], [q]]))
  else if inst.itype = InstType.OPER_ADDER then do
    let (out0, m1) ← operatorOutput nm inst m
    let out ← (match inst.cout with
      | some n => do
          let cb ← nm n
          Except.ok (out0 ++ [cb])
      | none => Except.ok out0)
    let cinN ← reqNet inst.cin
    if cinN.isGnd then do
      let a1 ← operatorInput1 nm inst
      let a2 ← operatorInput2 nm inst
      Except.ok (true, addCell m1 (Cell.typed (some (escape_id inst.name)) CellType.cAdd inst.viewIsSigned [a1, a2, out]))
    else do
      let (t, m2) := addWire m1 out.length
      let tmpSig := (List.range out.length).map (fun k => SigBit.wire t k)
      let a1 ← operatorInput1 nm inst
      let a2 ← operatorInput2 nm inst
      let m3 := addCell m2 (Cell.typed none CellType.cAdd inst.viewIsSigned [a1, a2, tmpSig])
      let cb ← nm cinN
      Except.ok (true, addCell m3 (Cell.typed (some (escape_id inst.name)) CellType.cAdd false [tmpSig, [cb], out]))
  else if inst.itype = InstType.OPER_MULTIPLIER then do
    let a1 ← operatorInput1 nm inst
    let a2 ← operatorInput2 nm inst
    let (out, m1) ← operatorOutput nm inst m
    Except.ok (true, addCell m1 (Cell.typed (some (escape_id inst.name)) CellType.cMul inst.viewIsSigned [a1, a2, out]))
  else if inst.itype = InstType.OPER_DIVIDER then do
    let a1 ← operatorInput1 nm inst
    let a2 ← operatorInput2 nm inst
    let (out, m1) ← operatorOutput nm inst m
    Except.ok (true, addCell m1 (Cell.typed (some (escape_id inst.name)) CellType.cDiv inst.viewIsSigned [a1, a2, out]))
  else if inst.itype = InstType.OPER_MODULO then do
    let a1 ← operatorInput1 nm inst
    let a2 ← operatorInput2 nm inst
    let (out, m1) ← operatorOutput nm inst m
    Except.ok (true, addCell m1 (Cell.typed (some (escape_id inst.name)) CellType.cMod inst.viewIsSigned [a1, a2, out]))
  else if inst.itype = InstType.OPER_REMAINDER then do
    let a1 ← operatorInput1 nm inst
    let a2 ← operatorInput2 nm inst
    let (out, m1) ← operatorOutput nm inst m
    Except.ok (true, addCell m1 (Cell.typed (some (escape_id inst.name)) CellType.cMod inst.viewIsSigned [a1, a2, out]))
  else if inst.itype = InstType.OPER_SHIFT_LEFT then do
    let a1 ← operatorInput1 nm inst
    let a2 ← operatorInput2 nm inst
    let (out, m1) ← operatorOutput nm inst m
    Except.ok (true, addCell m1 (Cell.typed (some (escape_id inst.name)) CellType.cShl false [a1, a2, out]))
  else if inst.itype = InstType.OPER_ENABLED_DECODER then do
    let cb ← nmOf nm inst.control
    let vec := cb :: List.replicate (inst.outputBits.length - 1) (SigBit.const BitState.S0)
    let a ← operatorInput nm inst
    let (out, m1) ← operatorOutput nm inst m
    Except.ok (true, addCell m1 (Cell.typed (some (escape_id inst.name)) CellType.cShl false [vec, a, out]))
  else if inst.itype = InstType.OPER_DECODER then do
    let vec := SigBit.const BitState.S1 :: List.replicate (inst.outputBits.length - 1) (SigBit.const BitState.S0)
    let a ← operatorInput nm inst
    let (out, m1) ← operatorOutput nm inst m
    Except.ok (true, addCell m1 (Cell.typed (some (escape_id inst.name)) CellType.cShl false [vec, a, out]))
  else if inst.itype = InstType.OPER_SHIFT_RIGHT then do
    let net_cin ← reqNet inst.cin
    let net_a_msb := getInput1Bit inst 0
    if net_cin.isGnd then do
      let a1 ← operatorInput1 nm inst
      let a2 ← operatorInput2 nm inst
      let (out, m1) ← operatorOutput nm inst m
      Except.ok (true, addCell m1 (Cell.typed (some (escape_id inst.name)) CellType.cShr false [a1, a2, out]))
    else if net_a_msb = some net_cin then do
      let a1 ← operatorInput1 nm inst
      let a2 ← operatorInput2 nm inst
      let (out, m1) ← operatorOutput nm inst m
      Except.ok (true, addCell m1 (Cell.typed (some (escape_id inst.name)) CellType.cSshr true [a1, a2, out]))
    else
      Except.error (TErr.unsupportedPattern inst.name)
  else if inst.itype = InstType.OPER_REDUCE_AND then do
    let a ← operatorInput nm inst
    let y ← nmOf nm inst.output
    Except.ok (true, addCell m (Cell.typed (some (escape_id inst.name)) CellType.cReduceAnd inst.viewIsSigned [a, [y]]))
  else if inst.itype = InstType.OPER_REDUCE_OR then do
    let a ← operatorInput nm inst
    let y ← nmOf nm inst.output
    Except.ok (true, addCell m (Cell.typed (some (escape_id inst.name)) CellType.cReduceOr inst.viewIsSigned [a, [y]]))
  else if inst.itype = InstType.OPER_REDUCE_XOR then do
    let a ← operatorInput nm inst
    let y ← nmOf nm inst.output
    Except.ok (true, addCell m (Cell.typed (some (escape_id inst.name)) CellType.cReduceXor inst.viewIsSigned [a, [y]]))
  else if inst.itype = InstType.OPER_REDUCE_XNOR then do
    let a ← operatorInput nm inst
    let y ← nmOf nm inst.output
    Except.ok (true, addCell m (Cell.typed (some (escape_id inst.name)) CellType.cReduceXnor inst.viewIsSigned [a, [y]]))
  else if inst.itype = InstType.OPER_LESSTHAN then do
    let net_cin ← reqNet inst.cin
    if net_cin.isGnd then do
      let a1 ← operatorInput1 nm inst
      let a2 ← operatorInput2 nm inst
      let y ← nmOf nm inst.output
      Except.ok (true, addCell m (Cell.typed (some (escape_id inst.name)) CellType.cLt inst.viewIsSigned [a1, a2, [y]]))
    else if net_cin.isPwr then do
      let a1 ← operatorInput1 nm inst
      let a2 ← operatorInput2 nm inst
      let y ← nmOf nm inst.output
      Except.ok (true, addCell m (Cell.typed (some (escape_id inst.name)) CellType.cLe inst.viewIsSigned [a1, a2, [y]]))
    else
      Except.error (TErr.unsupportedLessthan inst.name)
  else if inst.itype = InstType.OPER_WIDE_AND then do
    let a1 ← operatorInput1 nm inst
    let a2 ← operatorInput2 nm inst
    let (out, m1) ← operatorOutput nm inst m
    Except.ok (true, addCell m1 (Cell.typed (some (escape_id inst.name)) CellType.cAnd inst.viewIsSigned [a1, a2, out]))
  else if inst.itype = InstType.OPER_WIDE_OR then do
    let a1 ← operatorInput1 nm inst
    let a2 ← operatorInput2 nm inst
    let (out, m1) ← operatorOutput nm inst m
    Except.ok (true, addCell m1 (Cell.typed (some (escape_id inst.name)) CellType.cOr inst.viewIsSigned [a1, a2, out]))
  else if inst.itype = InstType.OPER_WIDE_XOR then do
    let a1 ← operatorInput1 nm inst
    let a2 ← operatorInput2 nm inst
    let (out, m1) ← operatorOutput nm inst m
    Except.ok (true, addCell m1 (Cell.typed (some (escape_id inst.name)) CellType.cXor inst.viewIsSigned [a1, a2, out]))
  else if inst.itype = InstType.OPER_WIDE_XNOR then do
    let a1 ← operatorInput1 nm inst
    let a2 ← operatorInput2 nm inst
    let (out, m1) ← operatorOutput nm inst m
    Except.ok (true, addCell m1 (Cell.typed (some (escape_id inst.name)) CellType.cXnor inst.viewIsSigned [a1, a2, out]))
  else if inst.itype = InstType.OPER_WIDE_BUF then do
    let a ← operatorInput nm inst
    let (out, m1) ← operatorOutput nm inst m
    Except.ok (true, addCell m1 (Cell.typed (some (escape_id inst.name)) CellType.cPos inst.viewIsSigned [a, out]))
  else if inst.itype = InstType.OPER_WIDE_INV then do
    let a ← operatorInput nm inst
    let (out, m1) ← operatorOutput nm inst m
    Except.ok (true, addCell m1 (Cell.typed (some (escape_id inst.name)) CellType.cNot inst.viewIsSigned [a, out]))
  else if inst.itype = InstType.OPER_MINUS then do
    let a1 ← operatorInput1 nm inst
    let a2 ← operatorInput2 nm inst
    let (out, m1) ← operatorOutput nm inst m
    Except.ok (true, addCell m1 (Cell.typed (some (escape_id inst.name)) CellType.cSub inst.viewIsSigned [a1, a2, out]))
  else if inst.itype = InstType.OPER_UMINUS then do
    let a ← operatorInput nm inst
    let (out, m1) ← operatorOutput nm inst m
    Except.ok (true, addCell m1 (Cell.typed (some (escape_id inst.name)) CellType.cNeg inst.viewIsSigned [a, out]))
  else if inst.itype = InstType.OPER_EQUAL then do
    let a1 ← operatorInput1 nm inst
    let a2 ← operatorInput2 nm inst
    let y ← nmOf nm inst.output
    Except.ok (true, addCell m (Cell.typed (some (escape_id inst.name)) CellType.cEq inst.viewIsSigned [a1, a2, [y]]))
  else if inst.itype = InstType.OPER_NEQUAL then do
    let a1 ← operatorInput1 nm inst
    let a2 ← operatorInput2 nm inst
    let y ← nmOf nm inst.output
    Except.ok (true, addCell m (Cell.typed (some (escape_id inst.name)) CellType.cNe inst.viewIsSigned [a1, a2, [y]]))
  else if inst.itype = InstType.OPER_WIDE_MUX then do
    let a1 ← operatorInput1 nm inst
    let a2 ← operatorInput2 nm inst
    let s ← nmOf nm inst.control
    let (out, m1) ← operatorOutput nm inst m
    Except.ok (true, addCell m1 (Cell.typed (some (escape_id inst.name)) CellType.cMux false [a1, a2, [s], out]))
  else if inst.itype = InstType.OPER_WIDE_TRI then do
    let a ← operatorInput nm inst
    let s ← nmOf nm inst.control
    let (out, m1) ← operatorOutput nm inst m
    Except.ok (true, addCell m1 (Cell.typed (some (escape_id inst.name)) CellType.cMux false [List.replicate inst.outputBits.length (SigBit.const BitState.Sz), a, [s], out]))
  else if inst.itype = InstType.OPER_WIDE_DFFRS then do
    let sig_set ← operatorInport nm inst.setPort
    let sig_reset ← operatorInport nm inst.resetPort
    if is_fully_const sig_set ∧ ¬ as_bool sig_set ∧ is_fully_const sig_reset ∧ ¬ as_bool sig_reset then do
      let c ← nmOf nm inst.clock
      let d ← operatorInput nm inst
      let (q, m1) ← operatorOutput nm inst m
      Except.ok (true, addCell m1 (Cell.typed (some (escape_id inst.name)) CellType.cDff false [[c], d, q]))
    else do
      let c ← nmOf nm inst.clock
      let d ← operatorInput nm inst
      let (q, m1) ← operatorOutput nm inst m
      Except.ok (true, addCell m1 (Cell.typed (some (escape_id inst.name)) CellType.cDffsr false [[c], sig_set, sig_reset, d, q]))
  else
    Except.ok (false, m)

/-- The instance types with a branch in import_netlist_instance_cells. -/
def cells_handles (t : InstType) : Bool :=
  match t with
  | InstType.PRIM_AND | InstType.PRIM_NAND | InstType.PRIM_OR | InstType.PRIM_NOR
  | InstType.PRIM_XOR | InstType.PRIM_XNOR | InstType.PRIM_INV | InstType.PRIM_MUX
  | InstType.PRIM_TRI | InstType.PRIM_FADD | InstType.PRIM_DFFRS | InstType.PRIM_DLATCHRS
  | InstType.OPER_ADDER | InstType.OPER_MULTIPLIER | InstType.OPER_DIVIDER
  | InstType.OPER_MODULO | InstType.OPER_REMAINDER | InstType.OPER_SHIFT_LEFT
  | InstType.OPER_ENABLED_DECODER | InstType.OPER_DECODER | InstType.OPER_SHIFT_RIGHT
  | InstType.OPER_REDUCE_AND | InstType.OPER_REDUCE_OR | InstType.OPER_REDUCE_XOR
  | InstType.OPER_REDUCE_XNOR | InstType.OPER_LESSTHAN
  | InstType.OPER_WIDE_AND | InstType.OPER_WIDE_OR | InstType.OPER_WIDE_XOR
  | InstType.OPER_WIDE_XNOR | InstType.OPER_WIDE_BUF | InstType.OPER_WIDE_INV
  | InstType.OPER_MINUS | InstType.OPER_UMINUS | InstType.OPER_EQUAL
  | InstType.OPER_NEQUAL | InstType.OPER_WIDE_MUX | InstType.OPER_WIDE_TRI
  | InstType.OPER_WIDE_DFFRS => true
  | _ => false

/-- The instance types with a branch in import_netlist_instance_gates. -/
def gates_handles (t : InstType) : Bool :=
  match t with
  | InstType.PRIM_AND | InstType.PRIM_NAND | InstType.PRIM_OR | InstType.PRIM_NOR
  | InstType.PRIM_XOR | InstType.PRIM_XNOR | InstType.PRIM_BUF | InstType.PRIM_INV
  | InstType.PRIM_MUX | InstType.PRIM_TRI | InstType.PRIM_FADD | InstType.PRIM_DFFRS => true
  | _ => false

/-- The instance types with a fixed special-case handler in the instance loop
of import_netlist, before the translation tables are consulted. -/
def special_handled (t : InstType) : Bool :=
  match t with
  | InstType.PRIM_SVA_POSEDGE | InstType.PRIM_SVA_AT
  | InstType.PRIM_SVA_IMMEDIATE_ASSERT | InstType.PRIM_SVA_ASSERT
  | InstType.PRIM_SVA_IMMEDIATE_ASSUME | InstType.PRIM_SVA_ASSUME
  | InstType.PRIM_SVA_IMMEDIATE_COVER | InstType.PRIM_SVA_COVER
  | InstType.PRIM_PWR | InstType.PRIM_GND | InstType.PRIM_BUF
  | InstType.PRIM_X | InstType.PRIM_Z
  | InstType.OPER_READ_PORT | InstType.OPER_WRITE_PORT
  | InstType.OPER_CLOCKED_WRITE_PORT => true
  | _ => false

/-- Per-import state of the instance loop: the module being built, the queue of
netlists still to import (nl_todo), the warnings issued so far, and the
PRIM_SVA_POSEDGE output-to-clock map built by the first instance pass. -/
structure ImpSt where
  mod : RModule
  todo : List Nat
  warnings : List String
  sva_posedge_map : List (Net × Net)
deriving Repr

/-- Assoc-list update: replace the binding of a key, appending it when absent
(dict/map indexed assignment). -/
def aset {α β : Type} [DecidableEq α] : List (α × β) → α → β → List (α × β)
| [], a, b => [(a, b)]
| (x, y) :: rest, a, b =>
    if x = a then (x, b) :: rest else (x, y) :: aset rest a b

/-- One FOREACH_PORTREF_OF_INST iteration when building the placeholder cell's
connections: pad the port's signal vector with bits of one fresh wire up to the
needed offset, then overwrite the bit at the offset with the resolved net. -/
def add_portref (nm : Net → Except TErr SigBit)
    (acc : RModule × List (String × SigSpec)) (pr : PortRefConn) :
    Except TErr (RModule × List (String × SigSpec)) := do
  let b ← nm pr.net
  let key := escape_id pr.pname
  let sv := (alookup acc.2 key).getD []
  if sv.length ≤ pr.offset then
    let (w, m1) := addWire acc.1 (pr.offset + 1 - sv.length)
    let sv2 := sv ++ (List.range (pr.offset + 1 - sv.length)).map (fun k => SigBit.wire w k)
    Except.ok (m1, aset acc.2 key (sv2.set pr.offset b))
  else
    Except.ok (acc.1, aset acc.2 key (sv.set pr.offset b))

/-- Fold add_portref over all port references of an instance. -/
def fold_portrefs (nm : Net → Except TErr SigBit) :
    RModule → List (String × SigSpec) → List PortRefConn →
    Except TErr (RModule × List (String × SigSpec))
| m, conns, [] => Except.ok (m, conns)
| m, conns, pr :: rest => do
    let acc ← add_portref nm (m, conns) pr
    fold_portrefs nm acc.1 acc.2 rest

/-- The log_warning text for an operator that fell through the cell table. -/
def operator_warning (inst : Instance) : String :=
  "Unsupported Verific operator: " ++ inst.viewOwnerName

/-- The log_warning text for an untranslated primitive kept as a black box. -/
def primitive_warning (inst : Instance) : String :=
  "Unsupported Verific primitive " ++ inst.name ++ " of type " ++ inst.viewOwnerName

/-- The remainder of the instance loop body after the fixed special-case
handlers: consult the active translation table; when it does not recognize the
instance, warn about untranslated operators (cell mode), abort on a primitive
in strict mode, and otherwise warn, enqueue the instance's netlist and add the
opaque black-box placeholder cell with its port connections. -/
def import_instance_tail (mode_gates mode_keep : Bool) (nm : Net → Except TErr SigBit)
    (inst : Instance) (st : ImpSt) : Except TErr ImpSt := do
  let tr ← (if mode_gates then import_netlist_instance_gates nm inst st.mod
            else import_netlist_instance_cells nm inst st.mod)
  match tr with
  | (true, m') => Except.ok { st with mod := m' }
  | (false, m') =>
      let st1 : ImpSt := { st with mod := m' }
      let st2 := if ¬ mode_gates ∧ inst.isOperator then
          { st1 with warnings := st1.warnings ++ [operator_warning inst] }
        else st1
      if inst.isPrimitive ∧ ¬ mode_keep then
        Except.error (TErr.unsupportedPrimitive inst.name inst.viewOwnerName)
      else
        let st3 := if inst.isPrimitive then
            { st2 with warnings := st2.warnings ++ [primitive_warning inst] }
          else st2
        let st4 := { st3 with todo := st3.todo ++ [inst.viewId] }
        let typeName := if inst.isOperator then "$verific$" ++ inst.viewOwnerName
          else escape_id inst.viewOwnerName
        do
          let acc ← fold_portrefs nm st4.mod [] inst.portRefs
          Except.ok { st4 with mod := addCell acc.1 (Cell.box (escape_id inst.name) typeName acc.2) }

/-- The body of the second FOREACH_INSTANCE_OF_NETLIST loop of import_netlist
for one instance: the fixed special-case handlers in source order, then the
tail (translation table, strict-mode check, black-box placeholder). -/
def import_instance (mode_gates mode_keep : Bool) (nm : Net → Except TErr SigBit)
    (inst : Instance) (st : ImpSt) : Except TErr ImpSt :=
  if inst.itype = InstType.PRIM_SVA_POSEDGE then
    Except.ok st
  else if inst.itype = InstType.PRIM_SVA_AT then do
    let in1 ← reqNet inst.input1
    let in2 ← reqNet inst.input2
    let out ← reqNet inst.output
    let (a, b) := if (alookup st.sva_posedge_map in2).isSome then (in2, in1) else (in1, in2)
    match alookup st.sva_posedge_map a with
    | none => Except.error TErr.assertFailed
    | some clk => do
        let outsig ← nm out
        match outsig with
        | SigBit.const _ => Except.error TErr.assertFailed
        | SigBit.wire w _ =>
            if wire_width st.mod w = 1 then do
              let m1 := { st.mod with initAttrs := st.mod.initAttrs ++ [(w, [BitState.S1])] }
              let cb ← nm clk
              let bb ← nm b
              Except.ok { st with mod := addCell m1 (Cell.typed none CellType.cDff false [[cb], [bb], [outsig]]) }
            else Except.error TErr.assertFailed
  else if inst.itype = InstType.PRIM_SVA_IMMEDIATE_ASSERT ∨ inst.itype = InstType.PRIM_SVA_ASSERT then do
    let a ← nmOf nm inst.input
    Except.ok { st with mod := addCell st.mod (Cell.typed none CellType.cAssert false [[a], [SigBit.const BitState.S1]]) }
  else if inst.itype = InstType.PRIM_SVA_IMMEDIATE_ASSUME ∨ inst.itype = InstType.PRIM_SVA_ASSUME then do
    let a ← nmOf nm inst.input
    Except.ok { st with mod := addCell st.mod (Cell.typed none CellType.cAssume false [[a], [SigBit.const BitState.S1]]) }
  else if inst.itype = InstType.PRIM_SVA_IMMEDIATE_COVER ∨ inst.itype = InstType.PRIM_SVA_COVER then do
    let a ← nmOf nm inst.input
    Except.ok { st with mod := addCell st.mod (Cell.typed none CellType.cCover false [[a], [SigBit.const BitState.S1]]) }
  else if inst.itype = InstType.PRIM_PWR then do
    let o ← nmOf nm inst.output
    Except.ok { st with mod := addConn st.mod [o] [SigBit.const BitState.S1] }
  else if inst.itype = InstType.PRIM_GND then do
    let o ← nmOf nm inst.output
    Except.ok { st with mod := addConn st.mod [o] [SigBit.const BitState.S0] }
  else if inst.itype = InstType.PRIM_BUF then do
    let a ← nmOf nm inst.input
    let y ← nmOf nm inst.output
    Except.ok { st with mod := addCell st.mod (Cell.typed (some (escape_id inst.name)) CellType.gBuf false [[a], [y]]) }
  else if inst.itype = InstType.PRIM_X then do
    let o ← nmOf nm inst.output
    Except.ok { st with mod := addConn st.mod [o] [SigBit.const BitState.Sx] }
  else if inst.itype = InstType.PRIM_Z then do
    let o ← nmOf nm inst.output
    Except.ok { st with mod := addConn st.mod [o] [SigBit.const BitState.Sz] }
  else if inst.itype = InstType.OPER_READ_PORT then do
    let inNet ← reqNet inst.input
    match alookup st.mod.memories (escape_id inNet.name) with
    | none => Except.error TErr.mapMissing
    | some memory =>
        if memory.width ≠ inst.outputBits.length then
          Except.error (TErr.asymmetricMemory inst.name inNet.name)
        else do
          let addr ← operatorInput1 nm inst
          let (data, m1) ← operatorOutput nm inst st.mod
          Except.ok { st with mod := addCell m1 (Cell.memrd (escape_id inst.name) memory.name addr.length data.length addr data) }
  else if inst.itype = InstType.OPER_WRITE_PORT ∨ inst.itype = InstType.OPER_CLOCKED_WRITE_PORT then do
    let outNet ← reqNet inst.output
    match alookup st.mod.memories (escape_id outNet.name) with
    | none => Except.error TErr.mapMissing
    | some memory =>
        if memory.width ≠ inst.input2Bits.length then
          Except.error (TErr.asymmetricMemory inst.name outNet.name)
        else do
          let addr ← operatorInput1 nm inst
          let data ← operatorInput2 nm inst
          let en0 ← nmOf nm inst.control
          let en := List.replicate data.length en0
          if inst.itype = InstType.OPER_CLOCKED_WRITE_PORT then do
            let clk ← nmOf nm inst.clock
            Except.ok { st with mod := addCell st.mod (Cell.memwr (escape_id inst.name) memory.name true addr.length data.length en [clk] addr data) }
          else
            Except.ok { st with mod := addCell st.mod (Cell.memwr (escape_id inst.name) memory.name false addr.length data.length en [SigBit.const BitState.S0] addr data) }
  else import_instance_tail mode_gates mode_keep nm inst st

/-- The quote character of a Verilog sized literal (ASCII 39). -/
def quoteChar : Char := Char.ofNat 39

/-- Whether an initializer character is a defined bit. -/
def is01 (c : Char) : Bool :=
  if c = '0' then true else if c = '1' then true else false

/-- One initializer character as a bit state (non-digits are don't-care). -/
def char_state (c : Char) : BitState :=
  if c = '0' then BitState.S0 else if c = '1' then BitState.S1 else BitState.Sx

/-- The size/radix-marker skipping prologue of the initial-value decoder: drop
up to and including the quote, then require and drop the binary radix letter
(log_assert) when anything follows the quote. -/
def skip_init_marker (cs : List Char) : Except TErr (List Char) :=
  match cs.dropWhile (fun c => decide (c ≠ quoteChar)) with
  | [] => Except.ok []
  | _ :: rest =>
    match rest with
    | [] => Except.ok []
    | c :: rest2 => if c = 'b' then Except.ok rest2 else Except.error TErr.assertFailed

/-- The inner bit loop of the initial-value decoder: one word's bits, filled
from bit width-1 downward; the result value is LSB-first, the flag records
whether any defined bit was seen, and the last component is the unconsumed
remainder of the string (consumption stops early only when the string ends). -/
def decode_word : Nat → List Char → (List BitState × Bool × List Char)
| 0, cs => ([], false, cs)
| w + 1, [] => (List.replicate (w + 1) BitState.Sx, false, [])
| w + 1, c :: cs =>
    let r := decode_word w cs
    (r.1 ++ [char_state c], is01 c || r.2.1, r.2.2)

/-- The outer word loop of the initial-value decoder: one window per word in
word-index order, a window with a defined bit produces one $meminit cell whose
address is the word index for an ascending backing range and the mirrored index
for a descending one. -/
def decode_words (width size : Nat) (asc : Bool) (memid : String) :
    Nat → Nat → List Char → List Cell
| 0, _, _ => []
| n + 1, word_idx, cs =>
    let r := decode_word width cs
    let rest := decode_words width size asc memid n (word_idx + 1) r.2.2
    if r.2.1 then
      Cell.meminit (if asc then word_idx else size - word_idx - 1) r.1 memid width :: rest
    else rest

/-- One instance attached to a RAM-backing net, with the attributes the memory
inference reads from it. -/
structure RamPort where
  itype : InstType
  iname : String
  viewOwnerName : String
  outputSize : Nat
  input2Size : Nat
deriving DecidableEq, Repr

/-- A RAM-backing net (Net::IsRamNet) as the memory inference reads it: name,
total bit count (Net::Size), the attached port references, the optional packed
initial-value string (Net::GetWideInitialValue) and the original type-range
bounds that decide the address direction. -/
structure RamNetInfo where
  name : String
  numBits : Nat
  ports : List RamPort
  initdata : Option (List Char)
  leftBound : Int
  rightBound : Int
deriving DecidableEq, Repr

/-- The FOREACH_PORTREF_OF_NET loop: fold the attached instances into the
common word width, starting from the net's own bit count; any instance that is
not a read or (clocked) write port is the fatal log_error of the source. -/
def ram_bits_in_word (netName : String) : Nat → List RamPort → Except TErr Nat
| acc, [] => Except.ok acc
| acc, p :: rest =>
    if p.itype = InstType.OPER_READ_PORT then
      ram_bits_in_word netName (min acc p.outputSize) rest
    else if p.itype = InstType.OPER_WRITE_PORT ∨ p.itype = InstType.OPER_CLOCKED_WRITE_PORT then
      ram_bits_in_word netName (min acc p.input2Size) rest
    else
      Except.error (TErr.ramBadInstance netName p.viewOwnerName p.iname)

/-- The IsRamNet branch of the net loop of import_netlist: create the memory
(its name must be free, log_assert), derive width and size, and decode the
optional initial-value string into $meminit cells. -/
def import_ram_net (info : RamNetInfo) (m : RModule) : Except TErr RModule := do
  let memname := escape_id info.name
  if (alookup m.memories memname).isSome then
    Except.error TErr.assertFailed
  else do
    let w ← ram_bits_in_word info.name info.numBits info.ports
    let memory : Memory := { name := memname, width := w, size := info.numBits / w }
    let m1 := { m with memories := m.memories ++ [(memname, memory)] }
    match info.initdata with
    | none => Except.ok m1
    | some cs => do
        let cs1 ← skip_init_marker cs
        let newCells := decode_words memory.width memory.size (decide (info.leftBound < info.rightBound)) memname memory.size 0 cs1
        Except.ok { m1 with cells := m1.cells ++ newCells }

/-- The module-naming and redefinition check at the top of import_netlist: an
operator netlist gets the shared `$verific$` name, a user module its escaped
owner name; an existing operator name silently skips the import (the design is
returned unchanged), an existing user-module name is the fatal log_cmd_error
(noreturn per kernel/log.h); a free name registers the new module. -/
def import_netlist_header (design : List String) (nlIsOperator : Bool)
    (ownerName : String) : Except TErr (List String) :=
  let module_name := if nlIsOperator then "$verific$" ++ ownerName else escape_id ownerName
  if design.contains module_name then
    if ¬ nlIsOperator then Except.error (TErr.redefinition ownerName)
    else Except.ok design
  else Except.ok (design ++ [module_name])

/-- The netlist hierarchy as VerificExtNets reads it: per netlist the number of
instantiation sites (Netlist::NumOfRefs) and, as read off the last reference,
the netlist owning that referencing instance. -/
structure Hier where
  numRefs : Nat → Nat
  refOwner : Nat → Nat

/-- VerificExtNets worker state: the port-name counter, the net_level_up memo,
a fresh-id counter for nets the resolver creates, and the ports and nets it has
synthesized. -/
structure ExtSt where
  portname_cnt : Nat
  net_level_up : List (Net × Net)
  nextNetId : Nat
  newPorts : List (String × Nat)
  newNets : List Net
deriving Repr

/-- VerificExtNets::get_net_level_up: memoized; a netlist without exactly one
instantiation site simply returns the net unchanged; otherwise a new output
port is added to the net's owner, a new net connected to it is created one
level up, and the pair is memoized. -/
def get_net_level_up (h : Hier) (st : ExtSt) (net : Net) : Net × ExtSt :=
  match alookup st.net_level_up net with
  | some m => (m, st)
  | none =>
    if h.numRefs net.owner ≠ 1 then (net, st)
    else
      let pname := "___extnets_" ++ Nat.repr st.portname_cnt
      let new_net : Net :=
        { id := st.nextNetId, name := pname, owner := h.refOwner net.owner,
          isGnd := false, isPwr := false }
      (new_net,
        { portname_cnt := st.portname_cnt + 1,
          net_level_up := st.net_level_up ++ [(net, new_net)],
          nextNetId := st.nextNetId + 1,
          newPorts := st.newPorts ++ [(pname, net.owner)],
          newNets := st.newNets ++ [new_net] })

/-- The while loop of VerificExtNets::run for one external reference: walk the
net up one hierarchy level at a time until it is no longer external to `nl`,
stopping early when get_net_level_up makes no progress.  Fuel bounds the walk
(the C++ loop is bounded by the hierarchy depth). -/
def fix_net (h : Hier) (nl : Nat) : Nat → Net → ExtSt → Net × ExtSt
| 0, net, st => (net, st)
| fuel + 1, net, st =>
    if net.owner = nl then (net, st)
    else
      let r := get_net_level_up h st net
      if r.1 = net then (net, r.2)
      else fix_net h nl fuel r.1 r.2

/-- One instance port reference of a netlist, as the scan of
VerificExtNets::run sees it. -/
structure ERef where
  iname : String
  pname : String
  net : Net
deriving DecidableEq, Repr

/-- The scan-then-reconnect pass of VerificExtNets::run over one netlist's
instance port references: non-external references are left untouched, external
ones are rewired to the net fix_net reaches (the source collects all
substitutions into todo_connect first and applies them after the scan; the
result list is that final connection of every reference). -/
def run_refs (h : Hier) (nl : Nat) (fuel : Nat) :
    List ERef → ExtSt → List (ERef × Net) × ExtSt
| [], st => ([], st)
| r :: rest, st =>
    if r.net.owner = nl then
      let out := run_refs h nl fuel rest st
      ((r, r.net) :: out.1, out.2)
    else
      let f := fix_net h nl fuel r.net st
      let out := run_refs h nl fuel rest f.2
      ((r, f.1) :: out.1, out.2)

/-- Pure form of the operand construction: the translator's operand signal,
given a total resolution function (net_map_at restricted to the nets that
resolve). -/
def operator_bits_pure (f : Net → SigBit) (l : List (Option Net)) : SigSpec :=
  l.map (fun ob => match ob with
    | some n => f n
    | none => SigBit.const BitState.Sz)

/-- Well-formedness of the wire store: every wire id is below the fresh-id
counter (true of every module the importer builds). -/
def wires_wf (m : RModule) : Prop :=
  ∀ p ∈ m.wires, p.1 < m.nextId

/-- The width fed into the per-port min fold of the memory inference
(read ports contribute their output size, write ports their input2 size). -/
def port_width (p : RamPort) : Nat :=
  if p.itype = InstType.OPER_READ_PORT then p.outputSize else p.input2Size

/-- Whether an instance attached to a RAM net is one of the access-port kinds
the memory inference accepts. -/
def good_port (p : RamPort) : Bool :=
  if p.itype = InstType.OPER_READ_PORT then true
  else if p.itype = InstType.OPER_WRITE_PORT then true
  else if p.itype = InstType.OPER_CLOCKED_WRITE_PORT then true
  else false

/-- The inferred word width: the minimum of the net's bit count and the widths
of all attached access ports. -/
def min_port_width (info : RamNetInfo) : Nat :=
  info.ports.foldl (fun acc p => min acc (port_width p)) info.numBits

/-- Stated from the spec's wording of the initial-value decoding: the word
value decoded from one width-sized window of the initializer string, LSB-first
(the window's leftmost character is the word's top bit, missing characters stay
don't-care). -/
def window_bits (width : Nat) (win : List Char) : List BitState :=
  List.replicate (width - win.length) BitState.Sx ++ (win.map char_state).reverse

/-- Stated from the spec's wording: the initializer record produced by word
`j` from its window — none when the window holds no defined bit, otherwise a
$meminit record at address j (ascending range) or size-j-1 (descending). -/
def window_record (width size : Nat) (asc : Bool) (memid : String) (j : Nat)
    (win : List Char) : Option Cell :=
  if win.any is01 then
    some (Cell.meminit (if asc then j else size - j - 1) (window_bits width win) memid width)
  else none

/-- An upward chain in the instantiation hierarchy: `PathUp h nl o k` says the
owner `o` reaches the netlist `nl` in `k` parent steps, every netlist strictly
below `nl` on the way having exactly one instantiation site (and a parent
distinct from itself, as in any acyclic hierarchy). -/
inductive PathUp (h : Hier) (nl : Nat) : Nat → Nat → Prop
| refl : PathUp h nl nl 0
| step (o k : Nat) : o ≠ nl → h.numRefs o = 1 → h.refOwner o ≠ o →
    PathUp h nl (h.refOwner o) k → PathUp h nl o (k + 1)

/-- Invariant of the net_level_up memo: every entry was created by
get_net_level_up, so its key's owner is singly instantiated and its value lives
one level up. -/
def memo_wf (h : Hier) (st : ExtSt) : Prop :=
  ∀ p ∈ st.net_level_up, h.numRefs p.1.owner = 1 ∧ p.2.owner = h.refOwner p.1.owner

/-- A ground net for concrete test inputs. -/
def gndNet : Net := { id := 1, name := "g", owner := 0, isGnd := true, isPwr := false }

/-- A plain named net for concrete test inputs. -/
def netA : Net := { id := 2, name := "a", owner := 0, isGnd := false, isPwr := false }

/-- A second plain named net for concrete test inputs. -/
def netB : Net := { id := 3, name := "b", owner := 0, isGnd := false, isPwr := false }

/-- A total resolution function for concrete test inputs: bit `id` of one big
wire. -/
def nmTest : Net → Except TErr SigBit :=
  fun n => Except.ok (SigBit.wire 1000 n.id)

/-- The pure counterpart of nmTest. -/
def fTest : Net → SigBit :=
  fun n => SigBit.wire 1000 n.id

/-- Concrete OPER_SHIFT_RIGHT instance with carry-in tied to ground. -/
def shrInstG : Instance := { instBase with
  itype := InstType.OPER_SHIFT_RIGHT, name := "sh", cin := some gndNet,
  input1Bits := [some netA, some netB], input2Bits := [some netB],
  outputBits := [some netA, none] }

/-- Concrete set/reset latch with the set pin grounded and the reset pin on a
plain net (the "exactly one tied to ground" case). -/
def latchCexOne : Instance := { instBase with
  itype := InstType.PRIM_DLATCHRS, name := "lt", set := some gndNet, reset := some netA,
  control := some netB, input := some netA, output := some netB }

/-- Concrete set/reset latch with neither pin grounded. -/
def latchCexBoth : Instance := { instBase with
  itype := InstType.PRIM_DLATCHRS, name := "lt", set := some netB, reset := some netA,
  control := some netB, input := some netA, output := some netB }

/-- Concrete RAM-backing net refuting width*size = bitwidth: 64 bits with one
7-bit read port. -/
def ramCexInfo : RamNetInfo :=
  { name := "m", numBits := 64,
    ports := [{ itype := InstType.OPER_READ_PORT, iname := "r", viewOwnerName := "read_port",
                outputSize := 7, input2Size := 0 }],
    initdata := none, leftBound := 0, rightBound := 63 }

/-- Scenario B: a 64-bit RAM net with one 8-bit read port, one 8-bit write
port and the initializer string 8'b00000001, ascending range. -/
def scenB : RamNetInfo :=
  { name := "m", numBits := 64,
    ports := [{ itype := InstType.OPER_READ_PORT, iname := "r", viewOwnerName := "read_port",
                outputSize := 8, input2Size := 0 },
              { itype := InstType.OPER_WRITE_PORT, iname := "w", viewOwnerName := "write_port",
                outputSize := 0, input2Size := 8 }],
    initdata := some ('8' :: quoteChar :: 'b' :: "00000001".data),
    leftBound := 0, rightBound := 63 }

/-- Scenario B with a descending backing range. -/
def scenBdesc : RamNetInfo := { scenB with leftBound := 63, rightBound := 0 }

/-- A two-level hierarchy for the resolver counterexample: netlist 0 is the
root (no instantiation sites), netlist 1 its only child (one site, inside 0). -/
def cexHier : Hier :=
  { numRefs := fun i => if i = 1 then 1 else 0, refOwner := fun _ => 0 }

/-- A net owned by the root netlist 0 — the strict ancestor of netlist 1. -/
def cexNetR : Net := { id := 10, name := "x", owner := 0, isGnd := false, isPwr := false }

/-- Fresh resolver state. -/
def extSt0 : ExtSt :=
  { portname_cnt := 0, net_level_up := [], nextNetId := 100, newPorts := [], newNets := [] }

/-- A port reference inside netlist 1 whose net is owned by the ancestor 0. -/
def cexRef : ERef := { iname := "i", pname := "p", net := cexNetR }

/-- Concrete word-level flip-flop whose set inport is all-ground and whose
reset inport is a plain net. -/
def wideDffCex : Instance := { instBase with
  itype := InstType.OPER_WIDE_DFFRS, name := "wd", clock := some netB,
  inputBits := [some netA], outputBits := [some netB],
  setPort := Inport.bus [some gndNet], resetPort := Inport.bus [some netA] }

/-- Concrete unsupported primitive instance for the dispatcher tests. -/
def unkPrimInst : Instance := { instBase with
  itype := InstType.PRIM_UNKNOWN, name := "u", viewOwnerName := "UNKNOWN_PRIM", viewId := 7,
  isPrimitive := true,
  portRefs := [{ pname := "p", offset := 1, net := netA }, { pname := "p", offset := 0, net := netB }] }

/-- Fresh importer state. -/
def impSt0 : ImpSt :=
  { mod := emptyModule, todo := [], warnings := [], sva_posedge_map := [] }

/-- The net a registration step is about. -/
def regStepNet : RegStep → Net
| RegStep.port n _ _ => n
| RegStep.busnet n _ => n

/-- A three-level singly-instantiated hierarchy for the resolver witness:
netlist 0 is the root, netlist i+1 is instantiated exactly once, inside
netlist i. -/
def wHier : Hier :=
  { numRefs := fun i => if i = 0 then 0 else 1, refOwner := fun i => i - 1 }

/-- A net owned by netlist 2 — a strict descendant of the root 0. -/
def wNet : Net := { id := 20, name := "y", owner := 2, isGnd := false, isPwr := false }

/-- A port reference inside the root netlist 0 whose net lives in the
descendant netlist 2. -/
def wRef : ERef := { iname := "j", pname := "q", net := wNet }

/-- A concrete operator instance with partially connected outputs: two
unconnected top bits, a connected middle bit, then an unconnected and a
connected bit. -/
def c10Inst : Instance := { instBase with
  name := "op", inputBits := [some netA, none, none],
  outputBits := [some netA, none, some netB, none, none] }

/-- A RAM-backing net with a non-access-port instance attached. -/
def ramBadInfo : RamNetInfo :=
  { name := "m", numBits := 8,
    ports := [{ itype := InstType.PRIM_AND, iname := "x", viewOwnerName := "and",
                outputSize := 1, input2Size := 1 }],
    initdata := none, leftBound := 0, rightBound := 7 }

theorem alookup_append_left {α β : Type} [DecidableEq α] (l1 l2 : List (α × β)) (a : α) (b : β)
    (h : alookup l1 a = some b) : alookup (l1 ++ l2) a = some b := by
  induction l1 with
  | nil => simp [alookup] at h
  | cons p rest ih =>
      obtain ⟨x, y⟩ := p
      by_cases hx : x = a
      · simp [alookup, hx] at h ⊢
        exact h
      · simp [alookup, hx] at h ⊢
        exact ih h

theorem alookup_mem {α β : Type} [DecidableEq α] (l : List (α × β)) (a : α) (b : β)
    (h : alookup l a = some b) : (a, b) ∈ l := by
  induction l with
  | nil => simp [alookup] at h
  | cons p rest ih =>
      obtain ⟨x, y⟩ := p
      by_cases hx : x = a
      · simp [alookup, hx] at h
        subst hx h
        exact List.mem_cons_self _ _
      · simp [alookup, hx] at h
        exact List.mem_cons_of_mem _ (ih h)

theorem alookup_append_fresh {α β : Type} [DecidableEq α] (l : List (α × β)) (k : α) (v : β)
    (h : alookup l k = none) : alookup (l ++ [(k, v)]) k = some v := by
  induction l with
  | nil => simp [alookup]
  | cons p rest ih =>
      obtain ⟨x, y⟩ := p
      by_cases hx : x = k
      · simp [alookup, hx] at h
      · simp [alookup, hx] at h ⊢
        exact ih h

/-- Inversion of net_map_at on success. -/
theorem net_map_at_ok_iff (nl : Nat) (net_map : List (Net × SigBit)) (net : Net) (b : SigBit) :
    net_map_at nl net_map net = Except.ok b ↔ net.owner = nl ∧ alookup net_map net = some b := by
  unfold net_map_at
  by_cases ho : net.owner = nl
  · cases hl : alookup net_map net <;> simp [ho, hl]
  · simp [ho]

/-- C5: For every net passed to the signal mapper's resolve operation
(net_map_at) during the import of a netlist: a net not owned by the netlist
under import fails with the fatal external-reference error carrying the net's
true owner, the net's name and the importing netlist — the data the log_error
message is formatted from; an owned, mapped net resolves to its mapped signal
bit. -/
theorem resolve_external_reference (nl : Nat) (net_map : List (Net × SigBit)) (net : Net) :
    (net.owner ≠ nl →
      net_map_at nl net_map net = Except.error (TErr.externalRef net.owner net.name nl)) ∧
    (net.owner = nl → ∀ b, alookup net_map net = some b →
      net_map_at nl net_map net = Except.ok b) := by
  constructor
  · intro h
    simp [net_map_at, h]
  · intro h b hb
    simp [net_map_at, h, hb]

/-- Witness for C5 at concrete inputs: netA owned by 0 is external to
netlist 5 and errors; owned and mapped in netlist 0, it resolves. -/
theorem resolve_external_reference_witness :
    (netA.owner ≠ 5 ∧
      net_map_at 5 [] netA = Except.error (TErr.externalRef netA.owner netA.name 5)) ∧
    (netA.owner = 0 ∧ alookup [(netA, SigBit.wire 7 0)] netA = some (SigBit.wire 7 0) ∧
      net_map_at 0 [(netA, SigBit.wire 7 0)] netA = Except.ok (SigBit.wire 7 0)) := by
  refine ⟨⟨by decide, (resolve_external_reference 5 [] netA).1 (by decide)⟩,
    ⟨by decide, by decide, (resolve_external_reference 0 [(netA, SigBit.wire 7 0)] netA).2 (by decide) _ (by decide)⟩⟩

/-- One registration step never overwrites an existing binding. -/
theorem applyRegStep_preserve (nl : Nat) (st : RegSt) (s : RegStep) (st' : RegSt)
    (net : Net) (b : SigBit) (hm : alookup st.net_map net = some b)
    (hs : applyRegStep nl st s = Except.ok st') :
    alookup st'.net_map net = some b := by
  cases s with
  | port n bit isIn =>
      simp only [applyRegStep] at hs
      by_cases h0 : alookup st.net_map n = none
      · rw [if_pos h0] at hs
        simp at hs
        rw [← hs]
        exact alookup_append_left _ _ _ _ hm
      · rw [if_neg h0] at hs
        cases hnm : net_map_at nl st.net_map n with
        | error e => rw [hnm] at hs; exact absurd hs (by simp [Bind.bind, Except.bind])
        | ok b' =>
            rw [hnm] at hs
            simp [Bind.bind, Except.bind] at hs
            cases isIn <;> simp at hs <;> rw [← hs] <;> exact hm
  | busnet n bit =>
      simp only [applyRegStep] at hs
      by_cases h0 : alookup st.net_map n = none
      · rw [if_pos h0] at hs
        simp at hs
        rw [← hs]
        exact alookup_append_left _ _ _ _ hm
      · rw [if_neg h0] at hs
        cases hnm : net_map_at nl st.net_map n with
        | error e => rw [hnm] at hs; exact absurd hs (by simp [Bind.bind, Except.bind])
        | ok b' =>
            rw [hnm] at hs
            simp [Bind.bind, Except.bind] at hs
            rw [← hs]
            exact hm

/-- A sequence of registration steps never overwrites an existing binding. -/
theorem applyRegSteps_preserve (nl : Nat) :
    ∀ (steps : List RegStep) (st st' : RegSt) (net : Net) (b : SigBit),
      alookup st.net_map net = some b → applyRegSteps nl st steps = Except.ok st' →
      alookup st'.net_map net = some b := by
  intro steps
  induction steps with
  | nil =>
      intro st st' net b hm hs
      simp only [applyRegSteps] at hs
      simp at hs
      rw [← hs]
      exact hm
  | cons s rest ih =>
      intro st st' net b hm hs
      simp only [applyRegSteps] at hs
      cases h1 : applyRegStep nl st s with
      | error e => rw [h1] at hs; exact absurd hs (by simp [Bind.bind, Except.bind])
      | ok stm =>
          rw [h1] at hs
          simp [Bind.bind, Except.bind] at hs
          exact ih stm st' net b (applyRegStep_preserve nl st s stm net b hm h1) hs

/-- C6: Within one import pass every net keeps a single IR signal binding:
resolution results survive any sequence of registration steps (so resolving
the same net again returns the same bit), and a registration step whose net is
already mapped leaves the net map unchanged and emits one connection instead. -/
theorem net_map_unique_binding (nl : Nat) :
    (∀ (steps : List RegStep) (st st' : RegSt) (net : Net) (b : SigBit),
      alookup st.net_map net = some b → applyRegSteps nl st steps = Except.ok st' →
      alookup st'.net_map net = some b) ∧
    (∀ (steps : List RegStep) (st st' : RegSt) (net : Net) (b : SigBit),
      net_map_at nl st.net_map net = Except.ok b →
      applyRegSteps nl st steps = Except.ok st' →
      net_map_at nl st'.net_map net = Except.ok b) ∧
    (∀ (st : RegSt) (s : RegStep) (b : SigBit),
      alookup st.net_map (regStepNet s) = some b → (regStepNet s).owner = nl →
      ∃ c, applyRegStep nl st s = Except.ok { st with conns := st.conns ++ [c] }) := by
  refine ⟨applyRegSteps_preserve nl, ?_, ?_⟩
  · intro steps st st' net b hok hs
    rw [net_map_at_ok_iff] at hok
    rw [net_map_at_ok_iff]
    exact ⟨hok.1, applyRegSteps_preserve nl steps st st' net b hok.2 hs⟩
  · intro st s b hm howner
    cases s with
    | port n bit isIn =>
        simp [regStepNet] at hm howner
        have hno : ¬ alookup st.net_map n = none := by simp [hm]
        have hnm : net_map_at nl st.net_map n = Except.ok b :=
          (net_map_at_ok_iff nl st.net_map n b).2 ⟨howner, hm⟩
        cases isIn with
        | true =>
            exact ⟨([b], [bit]), by
              simp only [applyRegStep]
              rw [if_neg hno, hnm]
              simp [Bind.bind, Except.bind]⟩
        | false =>
            exact ⟨([bit], [b]), by
              simp only [applyRegStep]
              rw [if_neg hno, hnm]
              simp [Bind.bind, Except.bind]⟩
    | busnet n bit =>
        simp [regStepNet] at hm howner
        have hno : ¬ alookup st.net_map n = none := by simp [hm]
        have hnm : net_map_at nl st.net_map n = Except.ok b :=
          (net_map_at_ok_iff nl st.net_map n b).2 ⟨howner, hm⟩
        exact ⟨([bit], [b]), by
          simp only [applyRegStep]
          rw [if_neg hno, hnm]
          simp [Bind.bind, Except.bind]⟩

/-- Witness for C6 at concrete inputs: with netA already bound, a later port
sighting and a later bus sighting keep the binding and add connections. -/
theorem net_map_unique_binding_witness :
    (alookup [(netA, SigBit.wire 7 0)] netA = some (SigBit.wire 7 0) ∧
      applyRegSteps 0 (RegSt.mk [(netA, SigBit.wire 7 0)] [])
        [RegStep.port netA (SigBit.wire 8 0) true, RegStep.busnet netA (SigBit.wire 9 0)] =
        Except.ok (RegSt.mk [(netA, SigBit.wire 7 0)]
          [([SigBit.wire 7 0], [SigBit.wire 8 0]), ([SigBit.wire 9 0], [SigBit.wire 7 0])]) ∧
      alookup [(netA, SigBit.wire 7 0)] netA = some (SigBit.wire 7 0)) ∧
    (netA.owner = 0 ∧
      ∃ c, applyRegStep 0 (RegSt.mk [(netA, SigBit.wire 7 0)] [])
        (RegStep.busnet netA (SigBit.wire 9 0)) =
        Except.ok (RegSt.mk [(netA, SigBit.wire 7 0)] ([] ++ [c]))) := by
  constructor
  · refine ⟨by decide, by decide, ?_⟩
    exact (net_map_unique_binding 0).1
      [RegStep.port netA (SigBit.wire 8 0) true, RegStep.busnet netA (SigBit.wire 9 0)]
      (RegSt.mk [(netA, SigBit.wire 7 0)] [])
      (RegSt.mk [(netA, SigBit.wire 7 0)]
        [([SigBit.wire 7 0], [SigBit.wire 8 0]), ([SigBit.wire 9 0], [SigBit.wire 7 0])])
      netA (SigBit.wire 7 0) (by decide) (by decide)
  · exact ⟨by decide, (net_map_unique_binding 0).2.2
      (RegSt.mk [(netA, SigBit.wire 7 0)] [])
      (RegStep.busnet netA (SigBit.wire 9 0)) (SigBit.wire 7 0) (by decide) (by decide)⟩

/-- Counts of a string absent from a list are zero. -/
theorem count_eq_zero_of_contains_false (l : List String) (a : String)
    (h : l.contains a = false) : l.count a = 0 := by
  have hm : a ∉ l := by simpa using h
  simpa using List.count_eq_zero.mpr hm

/-- C7-counterexample: importing a user (non-operator) netlist whose escaped
name is already in the design is the fatal redefinition error — not, as the
claim states, a reported non-fatal condition after which the run continues
(log_cmd_error is noreturn per kernel/log.h). -/
theorem module_redefinition_counterexample :
    import_netlist_header [escape_id "top"] false "top" =
      Except.error (TErr.redefinition "top") := by
  decide

/-- C7-amended: an import whose derived module name collides with an existing
operator module silently returns the design unchanged — so importing the same
word-level operator netlist twice yields exactly one definition of its shared
module name — while a user-module collision aborts with the fatal
redefinition error. -/
theorem module_name_collision_amended (design : List String) (ownerName : String) :
    (design.contains ("$verific$" ++ ownerName) = true →
      import_netlist_header design true ownerName = Except.ok design) ∧
    (design.contains (escape_id ownerName) = true →
      import_netlist_header design false ownerName = Except.error (TErr.redefinition ownerName)) ∧
    (design.contains ("$verific$" ++ ownerName) = false →
      import_netlist_header design true ownerName =
        Except.ok (design ++ ["$verific$" ++ ownerName]) ∧
      import_netlist_header (design ++ ["$verific$" ++ ownerName]) true ownerName =
        Except.ok (design ++ ["$verific$" ++ ownerName]) ∧
      (design ++ ["$verific$" ++ ownerName]).count ("$verific$" ++ ownerName) = 1) := by
  refine ⟨?_, ?_, ?_⟩
  · intro h
    have hm : ("$verific$" ++ ownerName) ∈ design := by simpa using h
    simp [import_netlist_header, hm]
  · intro h
    have hm : escape_id ownerName ∈ design := by simpa using h
    simp [import_netlist_header, hm]
  · intro h
    have hm : ("$verific$" ++ ownerName) ∉ design := by simpa using h
    refine ⟨by simp [import_netlist_header, hm], ?_, ?_⟩
    · have hc : ("$verific$" ++ ownerName) ∈ design ++ ["$verific$" ++ ownerName] := by simp
      simp [import_netlist_header, hc]
    · rw [List.count_append]
      rw [count_eq_zero_of_contains_false design _ (by simpa using hm)]
      simp [List.count_cons]

/-- Witness for C7-amended at concrete inputs. -/
theorem module_name_collision_amended_witness :
    ([("$verific$" : String) ++ "add8"].contains ("$verific$" ++ "add8") = true ∧
      import_netlist_header [("$verific$" : String) ++ "add8"] true "add8" =
        Except.ok [("$verific$" : String) ++ "add8"]) ∧
    (([] : List String).contains ("$verific$" ++ "add8") = false ∧
      ([] ++ [("$verific$" : String) ++ "add8"]).count ("$verific$" ++ "add8") = 1) := by
  constructor
  · exact ⟨by decide, (module_name_collision_amended [("$verific$" : String) ++ "add8"] "add8").1 (by decide)⟩
  · exact ⟨by decide, ((module_name_collision_amended [] "add8").2.2 (by decide)).2.2⟩

/-- When every attached instance is an access port, the min fold computes the
word width, seeded with the net's bit count. -/
theorem ram_bits_in_word_ok (netName : String) :
    ∀ (ports : List RamPort) (acc : Nat), (∀ p ∈ ports, good_port p = true) →
      ram_bits_in_word netName acc ports =
        Except.ok (ports.foldl (fun a p => min a (port_width p)) acc) := by
  intro ports
  induction ports with
  | nil => intro acc _; rfl
  | cons p rest ih =>
      intro acc h
      have hp := h p (List.mem_cons_self _ _)
      have hrest : ∀ q ∈ rest, good_port q = true := fun q hq => h q (List.mem_cons_of_mem _ hq)
      by_cases h1 : p.itype = InstType.OPER_READ_PORT
      · simp [ram_bits_in_word, h1, ih _ hrest, port_width]
      · by_cases h2 : p.itype = InstType.OPER_WRITE_PORT ∨ p.itype = InstType.OPER_CLOCKED_WRITE_PORT
        · simp [ram_bits_in_word, h1, h2, ih _ hrest, port_width]
        · exfalso
          apply h2
          simp [good_port, h1] at hp
          tauto

/-- Any non-access-port instance attached to the net makes the fold fail. -/
theorem ram_bits_in_word_bad (netName : String) :
    ∀ (ports : List RamPort) (acc : Nat), (∃ p ∈ ports, good_port p = false) →
      ∃ e, ram_bits_in_word netName acc ports = Except.error e := by
  intro ports
  induction ports with
  | nil => intro acc h; simp at h
  | cons p rest ih =>
      intro acc h
      by_cases hpg : good_port p = true
      · have h1 : p.itype = InstType.OPER_READ_PORT ∨
            (p.itype = InstType.OPER_WRITE_PORT ∨ p.itype = InstType.OPER_CLOCKED_WRITE_PORT) := by
          by_cases ha : p.itype = InstType.OPER_READ_PORT
          · exact Or.inl ha
          · right
            simp [good_port, ha] at hpg
            tauto
        have hrest : ∃ q ∈ rest, good_port q = false := by
          obtain ⟨q, hq, hqb⟩ := h
          rcases List.mem_cons.mp hq with rfl | hqr
          · exact absurd hpg (by simp [hqb])
          · exact ⟨q, hqr, hqb⟩
        rcases h1 with ha | hb
        · obtain ⟨e, he⟩ := ih (min acc p.outputSize) hrest
          exact ⟨e, by simp [ram_bits_in_word, ha, he]⟩
        · have ha : ¬ p.itype = InstType.OPER_READ_PORT := by
            rcases hb with hb | hb <;> simp [hb]
          obtain ⟨e, he⟩ := ih (min acc p.input2Size) hrest
          exact ⟨e, by simp [ram_bits_in_word, ha, hb, he]⟩
      · have h1 : ¬ p.itype = InstType.OPER_READ_PORT := by
          intro hx; exact hpg (by simp [good_port, hx])
        have h2 : ¬ (p.itype = InstType.OPER_WRITE_PORT ∨ p.itype = InstType.OPER_CLOCKED_WRITE_PORT) := by
          intro hx
          apply hpg
          rcases hx with hx | hx <;> simp [good_port, hx]
        exact ⟨TErr.ramBadInstance netName p.viewOwnerName p.iname,
          by simp [ram_bits_in_word, h1, h2]⟩

/-- C3-counterexample: a 64-bit RAM-backing net with one 7-bit read port gets
width 7 and size 9 — the width is the minimum over the attached port widths,
but width * size = 63 is not the net's bit-width, refuting the claimed
invariant width * size == net.bitwidth. -/
theorem ram_width_size_counterexample :
    import_ram_net ramCexInfo emptyModule =
      Except.ok { emptyModule with memories := [(escape_id "m", Memory.mk (escape_id "m") 7 9)] } ∧
    min_port_width ramCexInfo = 7 ∧ ramCexInfo.numBits = 64 ∧ 7 * 9 ≠ 64 := by
  refine ⟨by decide, by decide, by decide, by decide⟩

/-- C3-amended: the created memory's width is the minimum of the net's
bit-width and the widths of all attached access ports, its size is the net's
bit-width divided (integer division) by that width — hence width * size is at
most the bit-width, with equality exactly when the width divides it — and any
attached instance that is not a read-port or write-port kind makes the import
fail fatally. -/
theorem ram_geometry_amended (info : RamNetInfo) (m : RModule)
    (hfree : alookup m.memories (escape_id info.name) = none)
    (hinit : info.initdata = none) :
    ((∀ p ∈ info.ports, good_port p = true) →
      import_ram_net info m = Except.ok { m with memories := m.memories ++ [(escape_id info.name, Memory.mk (escape_id info.name) (min_port_width info) (info.numBits / min_port_width info))] } ∧
      min_port_width info * (info.numBits / min_port_width info) ≤ info.numBits ∧
      (min_port_width info * (info.numBits / min_port_width info) = info.numBits ↔
        min_port_width info ∣ info.numBits)) ∧
    ((∃ p ∈ info.ports, good_port p = false) →
      ∃ e, import_ram_net info m = Except.error e) := by
  constructor
  · intro hgood
    have hw := ram_bits_in_word_ok info.name info.ports info.numBits hgood
    refine ⟨?_, ?_, ?_⟩
    · simp [import_ram_net, hfree, hw, hinit, min_port_width, Bind.bind, Except.bind]
    · rw [Nat.mul_comm]
      exact Nat.div_mul_le_self _ _
    · constructor
      · intro h
        exact ⟨info.numBits / min_port_width info, h.symm⟩
      · intro h
        exact Nat.mul_div_cancel' h
  · intro hbad
    obtain ⟨e, he⟩ := ram_bits_in_word_bad info.name info.ports info.numBits hbad
    exact ⟨e, by simp [import_ram_net, hfree, he, Bind.bind, Except.bind]⟩

/-- Witness for C3-amended at concrete inputs: the 7-bit-port net succeeds
with the fold width, a net with a PRIM_AND attached fails. -/
theorem ram_geometry_amended_witness :
    (alookup emptyModule.memories (escape_id ramCexInfo.name) = none ∧
      ramCexInfo.initdata = none ∧ (∀ p ∈ ramCexInfo.ports, good_port p = true) ∧
      import_ram_net ramCexInfo emptyModule = Except.ok { emptyModule with memories := emptyModule.memories ++ [(escape_id ramCexInfo.name, Memory.mk (escape_id ramCexInfo.name) (min_port_width ramCexInfo) (ramCexInfo.numBits / min_port_width ramCexInfo))] }) ∧
    (alookup emptyModule.memories (escape_id ramBadInfo.name) = none ∧
      (∃ p ∈ ramBadInfo.ports, good_port p = false) ∧
      ∃ e, import_ram_net ramBadInfo emptyModule = Except.error e) := by
  constructor
  · exact ⟨by decide, by decide, by decide,
      ((ram_geometry_amended ramCexInfo emptyModule (by decide) (by decide)).1 (by decide)).1⟩
  · exact ⟨by decide, by decide,
      (ram_geometry_amended ramBadInfo emptyModule (by decide) (by decide)).2
        ⟨ramBadInfo.ports.head (by decide), by decide, by decide⟩⟩

/-- The inner bit loop consumes exactly one width-sized window (less only when
the string ends). -/
theorem decode_word_rest (w : Nat) : ∀ cs : List Char, (decode_word w cs).2.2 = cs.drop w := by
  induction w with
  | zero => intro cs; rfl
  | succ w ih =>
      intro cs
      cases cs with
      | nil => simp [decode_word]
      | cons c cs => simp [decode_word, ih]

/-- A word is initialized exactly when its window holds a defined bit. -/
theorem decode_word_valid (w : Nat) : ∀ cs : List Char,
    (decode_word w cs).2.1 = (cs.take w).any is01 := by
  induction w with
  | zero => intro cs; rfl
  | succ w ih =>
      intro cs
      cases cs with
      | nil => simp [decode_word]
      | cons c cs => simp [decode_word, ih]

/-- The decoded word value is the window's value: leftmost window character to
the top bit, missing characters don't-care. -/
theorem decode_word_bits (w : Nat) : ∀ cs : List Char,
    (decode_word w cs).1 = window_bits w (cs.take w) := by
  induction w with
  | zero => intro cs; rfl
  | succ w ih =>
      intro cs
      cases cs with
      | nil => simp [decode_word, window_bits]
      | cons c cs =>
          simp [decode_word, ih, window_bits, List.reverse_cons]

/-- The word loop consumes the post-marker string strictly left to right in
width-sized windows, one per word. -/
theorem decode_words_windows (width size : Nat) (asc : Bool) (memid : String) :
    ∀ (n j : Nat) (cs : List Char),
      decode_words width size asc memid n j cs =
        (List.range n).filterMap (fun i =>
          window_record width size asc memid (j + i) ((cs.drop (i * width)).take width)) := by
  intro n
  induction n with
  | zero => intro j cs; simp [decode_words]
  | succ n ih =>
      intro j cs
      have htail : decode_words width size asc memid n (j + 1) ((decode_word width cs).2.2) =
          (List.range n).filterMap (fun i =>
            window_record width size asc memid (j + (i + 1)) ((cs.drop ((i + 1) * width)).take width)) := by
        rw [decode_word_rest, ih]
        congr 1
        funext i
        rw [List.drop_drop, Nat.succ_mul]
        have hj : j + 1 + i = j + (i + 1) := by omega
        have hw : width + i * width = i * width + width := by omega
        rw [hj, hw]
      rw [List.range_succ_eq_map, List.filterMap_cons, List.filterMap_map]
      have hcomp : (fun i => window_record width size asc memid (j + i) ((cs.drop (i * width)).take width)) ∘ Nat.succ =
          fun i => window_record width size asc memid (j + (i + 1)) ((cs.drop ((i + 1) * width)).take width) := by
        funext i
        simp [Function.comp, Nat.succ_eq_add_one]
      rw [hcomp]
      simp only [decode_words]
      rw [htail, decode_word_valid, decode_word_bits]
      by_cases hv : (cs.take width).any is01 = true
      · rw [if_pos hv]
        simp only [Nat.zero_mul, List.drop_zero, Nat.add_zero, window_record, hv, if_pos]
      · rw [if_neg hv]
        simp only [Nat.zero_mul, List.drop_zero, Nat.add_zero, window_record, hv]
        rw [if_neg (by simp [hv])]

/-- C4: The initializer string is consumed strictly left-to-right in
width-sized windows (one per word) after the size/radix marker, an
all-don't-care window yields no initializer record, and the word index is the
address for an ascending backing range and is mirrored for a descending one;
in particular Scenario B (64-bit net, 8-bit ports, initializer 8'b00000001)
yields width 8, size 8 and exactly one record valued 00000001 at address 0
ascending and 7 descending. -/
theorem ram_init_decoding :
    (∀ (width size : Nat) (asc : Bool) (memid : String) (cs : List Char),
      decode_words width size asc memid size 0 cs =
        (List.range size).filterMap (fun i =>
          window_record width size asc memid i ((cs.drop (i * width)).take width))) ∧
    (import_ram_net scenB emptyModule = Except.ok { emptyModule with memories := [(escape_id "m", Memory.mk (escape_id "m") 8 8)], cells := [Cell.meminit 0 (BitState.S1 :: List.replicate 7 BitState.S0) (escape_id "m") 8] }) ∧
    (import_ram_net scenBdesc emptyModule = Except.ok { emptyModule with memories := [(escape_id "m", Memory.mk (escape_id "m") 8 8)], cells := [Cell.meminit 7 (BitState.S1 :: List.replicate 7 BitState.S0) (escape_id "m") 8] }) := by
  refine ⟨?_, by decide, by decide⟩
  intro width size asc memid cs
  rw [decode_words_windows]
  simp

/-- With a totally successful resolution function, the operand loop computes
the pure operand signal. -/
theorem operator_bits_ok (nm : Net → Except TErr SigBit) (f : Net → SigBit)
    (hf : ∀ n, nm n = Except.ok (f n)) :
    ∀ l, operator_bits nm l = Except.ok (operator_bits_pure f l) := by
  intro l
  induction l with
  | nil => rfl
  | cons ob rest ih =>
      cases ob with
      | none => simp [operator_bits, operator_bits_pure, mapNetBit, ih, Bind.bind, Except.bind]
      | some n => simp [operator_bits, operator_bits_pure, mapNetBit, hf, ih, Bind.bind, Except.bind]

theorem wires_wf_emptyModule : wires_wf emptyModule := by
  intro p hp
  simp [emptyModule] at hp

theorem wires_wf_addWire (m : RModule) (width : Nat) (h : wires_wf m) :
    wires_wf (addWire m width).2 := by
  intro p hp
  simp [addWire] at hp
  rcases hp with hp | hp
  · exact Nat.lt_succ_of_lt (h p hp)
  · simp [addWire, hp]

theorem wires_wf_widen (m : RModule) (w : Nat) (h : wires_wf m) :
    wires_wf (widen_wire m w) := by
  intro p hp
  simp only [widen_wire, List.mem_map] at hp
  obtain ⟨q, hq, hpq⟩ := hp
  have hlt := h q hq
  subst hpq
  by_cases hqw : q.1 = w <;> simp [hqw, widen_wire] <;> omega

theorem alookup_nextId_none (m : RModule) (h : wires_wf m) :
    alookup m.wires m.nextId = none := by
  cases hl : alookup m.wires m.nextId with
  | none => rfl
  | some k =>
      have := h _ (alookup_mem _ _ _ hl)
      omega

/-- Lookup through the width-increment map of widen_wire. -/
theorem alookup_widen {l : List (Nat × Nat)} {w : Nat} :
    alookup (l.map (fun p => if p.1 = w then (p.1, p.2 + 1) else p)) w =
      (alookup l w).map (fun k => k + 1) := by
  induction l with
  | nil => rfl
  | cons p rest ih =>
      obtain ⟨x, y⟩ := p
      by_cases hx : x = w
      · subst hx
        have hfix : (fun p : Nat × Nat => if p.1 = x then (p.1, p.2 + 1) else p) (x, y) = (x, y + 1) := by
          simp
        simp only [List.map_cons, hfix]
        simp [alookup]
      · have hfix : (fun p : Nat × Nat => if p.1 = w then (p.1, p.2 + 1) else p) (x, y) = (x, y) := by
          simp [hx]
        simp only [List.map_cons, hfix]
        simp [alookup, hx, ih]

theorem wire_width_widen (m : RModule) (w k : Nat) (h : alookup m.wires w = some k) :
    wire_width (widen_wire m w) w = k + 1 := by
  simp [wire_width, widen_wire, alookup_widen, h]

theorem wire_width_of_alookup (m : RModule) (w k : Nat) (h : alookup m.wires w = some k) :
    wire_width m w = k := by
  simp [wire_width, h]

theorem alookup_widen_some (m : RModule) (w k : Nat) (h : alookup m.wires w = some k) :
    alookup (widen_wire m w).wires w = some (k + 1) := by
  simp [widen_wire, alookup_widen, h]

theorem alookup_addWire_self (m : RModule) (width : Nat) (h : wires_wf m) :
    alookup (addWire m width).2.wires (addWire m width).1 = some width := by
  simp only [addWire]
  exact alookup_append_fresh _ _ _ (alookup_nextId_none m h)

/-- operator_output_bits computes the pure dummy-wire signal and only touches
the wire store: with a totally successful resolution function it succeeds, the
produced bits are out_bits_pure at the module's fresh-id base, and cells,
connections, memories and attributes are untouched. -/
theorem operator_output_bits_ok (nm : Net → Except TErr SigBit) (f : Net → SigBit)
    (hf : ∀ n, nm n = Except.ok (f n)) :
    ∀ (l : List (Option Net)) (m : RModule) (d : Option Nat),
      wires_wf m →
      (∀ w, d = some w → ∃ k, alookup m.wires w = some k) →
      ∃ m', operator_output_bits nm m d l =
          Except.ok (out_bits_pure f m.nextId (d.map (fun w => (w, wire_width m w))) l, m') ∧
        m'.cells = m.cells ∧ m'.conns = m.conns ∧ m'.memories = m.memories ∧
        m'.initAttrs = m.initAttrs ∧ m.nextId ≤ m'.nextId ∧ wires_wf m' := by
  intro l
  induction l with
  | nil =>
      intro m d h1 _
      refine ⟨m, ?_, rfl, rfl, rfl, rfl, Nat.le_refl _, h1⟩
      cases d <;> rfl
  | cons ob rest ih =>
      intro m d h1 h2
      cases ob with
      | some n =>
          obtain ⟨m', hrun, hc, hco, hme, hia, hni, hwf⟩ := ih m none h1 (by simp)
          refine ⟨m', ?_, hc, hco, hme, hia, hni, hwf⟩
          cases d with
          | none =>
              simp [operator_output_bits, hf, hrun, out_bits_pure, Bind.bind, Except.bind]
          | some w =>
              simp [operator_output_bits, hf, hrun, out_bits_pure, Bind.bind, Except.bind]
      | none =>
          cases d with
          | none =>
              have hwf1 : wires_wf (addWire m 1).2 := wires_wf_addWire m 1 h1
              have hlk : alookup (addWire m 1).2.wires m.nextId = some 1 :=
                alookup_addWire_self m 1 h1
              obtain ⟨m', hrun, hc, hco, hme, hia, hni, hwf⟩ :=
                ih (addWire m 1).2 (some m.nextId) hwf1 (fun w hw => ⟨1, by cases hw; exact hlk⟩)
              have hww : wire_width (addWire m 1).2 m.nextId = 1 :=
                wire_width_of_alookup _ _ _ hlk
              have hni2 : (addWire m 1).2.nextId = m.nextId + 1 := rfl
              refine ⟨m', ?_, hc, hco, hme, hia, by omega, hwf⟩
              have hstep : operator_output_bits nm m none (none :: rest) =
                  Except.bind (operator_output_bits nm (addWire m 1).2 (some (addWire m 1).1) rest)
                    (fun p => Except.ok (SigBit.wire (addWire m 1).1 0 :: p.1, p.2)) := rfl
              rw [show Option.map (fun w => (w, wire_width (addWire m 1).2 w)) (some m.nextId) = some (m.nextId, wire_width (addWire m 1).2 m.nextId) from rfl] at hrun
              rw [hww, hni2] at hrun
              rw [hstep, show (addWire m 1).1 = m.nextId from rfl, hrun]
              simp [Except.bind, out_bits_pure]
          | some w =>
              obtain ⟨k, hk⟩ := h2 w rfl
              have hwf1 : wires_wf (widen_wire m w) := wires_wf_widen m w h1
              have hlk : alookup (widen_wire m w).wires w = some (k + 1) :=
                alookup_widen_some m w k hk
              obtain ⟨m', hrun, hc, hco, hme, hia, hni, hwf⟩ :=
                ih (widen_wire m w) (some w) hwf1 (fun w' hw => ⟨k + 1, by cases hw; exact hlk⟩)
              have hww1 : wire_width (widen_wire m w) w = k + 1 := wire_width_widen m w k hk
              have hww0 : wire_width m w = k := wire_width_of_alookup m w k hk
              have hni2 : (widen_wire m w).nextId = m.nextId := rfl
              refine ⟨m', ?_, hc, hco, hme, hia, by omega, hwf⟩
              have hstep : operator_output_bits nm m (some w) (none :: rest) =
                  Except.bind (operator_output_bits nm (widen_wire m w) (some w) rest)
                    (fun p => Except.ok (SigBit.wire w (wire_width (widen_wire m w) w - 1) :: p.1, p.2)) := rfl
              rw [show Option.map (fun x => (x, wire_width (widen_wire m w) x)) (some w) = some (w, wire_width (widen_wire m w) w) from rfl] at hrun
              rw [hww1, hni2] at hrun
              rw [hstep, hrun, hww1]
              simp [Except.bind, out_bits_pure, hww0]

/-- operatorOutput on a well-formed module: the pure signal at base nextId. -/
theorem operatorOutput_ok (nm : Net → Except TErr SigBit) (f : Net → SigBit)
    (hf : ∀ n, nm n = Except.ok (f n)) (inst : Instance) (m : RModule)
    (h1 : wires_wf m) :
    ∃ m', operatorOutput nm inst m =
        Except.ok (out_bits_pure f m.nextId none inst.outputBits.reverse, m') ∧
      m'.cells = m.cells ∧ m'.conns = m.conns ∧ m'.memories = m.memories ∧
      m'.initAttrs = m.initAttrs ∧ m.nextId ≤ m'.nextId ∧ wires_wf m' := by
  obtain ⟨m', hrun, h⟩ :=
    operator_output_bits_ok nm f hf inst.outputBits.reverse m none h1 (by simp)
  exact ⟨m', by simpa [operatorOutput] using hrun, h⟩

/-- A type outside the special-handler set differs from each special tag. -/
theorem special_handled_ne (t : InstType) (h : special_handled t = false) :
    t ≠ InstType.PRIM_SVA_POSEDGE ∧ t ≠ InstType.PRIM_SVA_AT ∧
    t ≠ InstType.PRIM_SVA_IMMEDIATE_ASSERT ∧ t ≠ InstType.PRIM_SVA_ASSERT ∧
    t ≠ InstType.PRIM_SVA_IMMEDIATE_ASSUME ∧ t ≠ InstType.PRIM_SVA_ASSUME ∧
    t ≠ InstType.PRIM_SVA_IMMEDIATE_COVER ∧ t ≠ InstType.PRIM_SVA_COVER ∧
    t ≠ InstType.PRIM_PWR ∧ t ≠ InstType.PRIM_GND ∧ t ≠ InstType.PRIM_BUF ∧
    t ≠ InstType.PRIM_X ∧ t ≠ InstType.PRIM_Z ∧
    t ≠ InstType.OPER_READ_PORT ∧ t ≠ InstType.OPER_WRITE_PORT ∧
    t ≠ InstType.OPER_CLOCKED_WRITE_PORT := by
  cases t <;> simp_all [special_handled]

/-- Outside the special-handler set the instance loop body is its tail. -/
theorem import_instance_not_special (mode_gates mode_keep : Bool)
    (nm : Net → Except TErr SigBit) (inst : Instance) (st : ImpSt)
    (h : special_handled inst.itype = false) :
    import_instance mode_gates mode_keep nm inst st =
      import_instance_tail mode_gates mode_keep nm inst st := by
  obtain ⟨n1, n2, n3, n4, n5, n6, n7, n8, n9, n10, n11, n12, n13, n14, n15, n16⟩ :=
    special_handled_ne inst.itype h
  simp [import_instance, n1, n2, n3, n4, n5, n6, n7, n8, n9, n10, n11, n12, n13, n14, n15, n16]

/-- A type outside the cell table falls through import_netlist_instance_cells
without touching the module. -/
theorem cells_not_handled (nm : Net → Except TErr SigBit) (inst : Instance) (m : RModule)
    (h : cells_handles inst.itype = false) :
    import_netlist_instance_cells nm inst m = Except.ok (false, m) := by
  cases ht : inst.itype <;> rw [ht] at h <;>
    simp_all [cells_handles, import_netlist_instance_cells, ht]

/-- A type outside the gate table falls through import_netlist_instance_gates
without touching the module. -/
theorem gates_not_handled (nm : Net → Except TErr SigBit) (inst : Instance) (m : RModule)
    (h : gates_handles inst.itype = false) :
    import_netlist_instance_gates nm inst m = Except.ok (false, m) := by
  cases ht : inst.itype <;> rw [ht] at h <;>
    simp_all [gates_handles, import_netlist_instance_gates, ht]

/-- The cell table at an OPER_SHIFT_RIGHT instance is exactly the carry-in
dispatch of the source. -/
theorem cells_shift_right (nm : Net → Except TErr SigBit) (inst : Instance) (m : RModule)
    (hitype : inst.itype = InstType.OPER_SHIFT_RIGHT) :
    import_netlist_instance_cells nm inst m = (do
      let net_cin ← reqNet inst.cin
      if net_cin.isGnd then do
        let a1 ← operatorInput1 nm inst
        let a2 ← operatorInput2 nm inst
        let (out, m1) ← operatorOutput nm inst m
        Except.ok (true, addCell m1 (Cell.typed (some (escape_id inst.name)) CellType.cShr false [a1, a2, out]))
      else if getInput1Bit inst 0 = some net_cin then do
        let a1 ← operatorInput1 nm inst
        let a2 ← operatorInput2 nm inst
        let (out, m1) ← operatorOutput nm inst m
        Except.ok (true, addCell m1 (Cell.typed (some (escape_id inst.name)) CellType.cSshr true [a1, a2, out]))
      else Except.error (TErr.unsupportedPattern inst.name)) := by
  simp [import_netlist_instance_cells, hitype]

/-- A translated instance (table hit) just updates the module. -/
theorem import_instance_tail_handled (mode_gates mode_keep : Bool)
    (nm : Net → Except TErr SigBit) (inst : Instance) (st : ImpSt) (m2 : RModule)
    (h : (if mode_gates then import_netlist_instance_gates nm inst st.mod
          else import_netlist_instance_cells nm inst st.mod) = Except.ok (true, m2)) :
    import_instance_tail mode_gates mode_keep nm inst st = Except.ok { st with mod := m2 } := by
  simp [import_instance_tail, h, Bind.bind, Except.bind]

/-- A fatal table error aborts the instance loop body. -/
theorem import_instance_tail_error (mode_gates mode_keep : Bool)
    (nm : Net → Except TErr SigBit) (inst : Instance) (st : ImpSt) (e : TErr)
    (h : (if mode_gates then import_netlist_instance_gates nm inst st.mod
          else import_netlist_instance_cells nm inst st.mod) = Except.error e) :
    import_instance_tail mode_gates mode_keep nm inst st = Except.error e := by
  simp [import_instance_tail, h, Bind.bind, Except.bind]

/-- C1: For every OPER_SHIFT_RIGHT instance translated in cell mode: a
constant-0 carry-in emits the logical shift-right cell ($shr), a carry-in that
is (not ground and) the very net of operand 1's most-significant bit emits the
arithmetic shift-right cell ($sshr, signed), and any other carry-in wiring is
the fatal unsupported-pattern error, with no shift cell produced (the import
aborts before any cell is added). -/
theorem shift_right_carry_policy (mode_keep : Bool) (nm : Net → Except TErr SigBit)
    (f : Net → SigBit) (hf : ∀ n, nm n = Except.ok (f n)) (inst : Instance) (st : ImpSt)
    (hwf : wires_wf st.mod) (hitype : inst.itype = InstType.OPER_SHIFT_RIGHT)
    (c : Net) (hcin : inst.cin = some c) :
    (c.isGnd = true →
      ∃ m1, import_instance false mode_keep nm inst st = Except.ok { st with mod := addCell m1 (Cell.typed (some (escape_id inst.name)) CellType.cShr false [operator_bits_pure f inst.input1Bits.reverse, operator_bits_pure f inst.input2Bits.reverse, out_bits_pure f st.mod.nextId none inst.outputBits.reverse]) } ∧
        m1.cells = st.mod.cells) ∧
    (c.isGnd = false → getInput1Bit inst 0 = some c →
      ∃ m1, import_instance false mode_keep nm inst st = Except.ok { st with mod := addCell m1 (Cell.typed (some (escape_id inst.name)) CellType.cSshr true [operator_bits_pure f inst.input1Bits.reverse, operator_bits_pure f inst.input2Bits.reverse, out_bits_pure f st.mod.nextId none inst.outputBits.reverse]) } ∧
        m1.cells = st.mod.cells) ∧
    (c.isGnd = false → ¬ getInput1Bit inst 0 = some c →
      import_instance false mode_keep nm inst st = Except.error (TErr.unsupportedPattern inst.name)) := by
  have hspec : special_handled inst.itype = false := by rw [hitype]; rfl
  have hdisp := import_instance_not_special false mode_keep nm inst st hspec
  have hshift := cells_shift_right nm inst st.mod hitype
  have ha1 := operator_bits_ok nm f hf inst.input1Bits.reverse
  have ha2 := operator_bits_ok nm f hf inst.input2Bits.reverse
  obtain ⟨m1, hout, hcells, _, _, _, _, _⟩ := operatorOutput_ok nm f hf inst st.mod hwf
  refine ⟨?_, ?_, ?_⟩
  · intro hg
    refine ⟨m1, ?_, hcells⟩
    have hcr : import_netlist_instance_cells nm inst st.mod =
        Except.ok (true, addCell m1 (Cell.typed (some (escape_id inst.name)) CellType.cShr false [operator_bits_pure f inst.input1Bits.reverse, operator_bits_pure f inst.input2Bits.reverse, out_bits_pure f st.mod.nextId none inst.outputBits.reverse])) := by
      rw [hshift]
      simp [reqNet, hcin, hg, operatorInput1, operatorInput2, ha1, ha2, hout, Bind.bind, Except.bind]
    rw [hdisp]
    exact import_instance_tail_handled false mode_keep nm inst st _ (by simpa using hcr)
  · intro hg hmsb
    refine ⟨m1, ?_, hcells⟩
    have hcr : import_netlist_instance_cells nm inst st.mod =
        Except.ok (true, addCell m1 (Cell.typed (some (escape_id inst.name)) CellType.cSshr true [operator_bits_pure f inst.input1Bits.reverse, operator_bits_pure f inst.input2Bits.reverse, out_bits_pure f st.mod.nextId none inst.outputBits.reverse])) := by
      rw [hshift]
      simp [reqNet, hcin, hg, hmsb, operatorInput1, operatorInput2, ha1, ha2, hout, Bind.bind, Except.bind]
    rw [hdisp]
    exact import_instance_tail_handled false mode_keep nm inst st _ (by simpa using hcr)
  · intro hg hmsb
    have hcr : import_netlist_instance_cells nm inst st.mod =
        Except.error (TErr.unsupportedPattern inst.name) := by
      rw [hshift]
      simp [reqNet, hcin, hg, hmsb, Bind.bind, Except.bind]
    rw [hdisp]
    exact import_instance_tail_error false mode_keep nm inst st _ (by simpa using hcr)

/-- Witness for C1 at concrete instances: ground carry-in gives $shr, carry-in
equal to the operand-1 MSB net gives $sshr, any other wiring is the fatal
unsupported-pattern error. -/
theorem shift_right_carry_policy_witness :
    (gndNet.isGnd = true ∧
      ∃ m1, import_instance false false nmTest shrInstG impSt0 = Except.ok { impSt0 with mod := addCell m1 (Cell.typed (some (escape_id "sh")) CellType.cShr false [operator_bits_pure fTest shrInstG.input1Bits.reverse, operator_bits_pure fTest shrInstG.input2Bits.reverse, out_bits_pure fTest impSt0.mod.nextId none shrInstG.outputBits.reverse]) } ∧
        m1.cells = impSt0.mod.cells) ∧
    (netA.isGnd = false ∧ getInput1Bit { shrInstG with cin := some netA } 0 = some netA ∧
      ∃ m1, import_instance false false nmTest { shrInstG with cin := some netA } impSt0 = Except.ok { impSt0 with mod := addCell m1 (Cell.typed (some (escape_id "sh")) CellType.cSshr true [operator_bits_pure fTest shrInstG.input1Bits.reverse, operator_bits_pure fTest shrInstG.input2Bits.reverse, out_bits_pure fTest impSt0.mod.nextId none shrInstG.outputBits.reverse]) } ∧
        m1.cells = impSt0.mod.cells) ∧
    (netB.isGnd = false ∧ ¬ getInput1Bit { shrInstG with cin := some netB } 0 = some netB ∧
      import_instance false false nmTest { shrInstG with cin := some netB } impSt0 =
        Except.error (TErr.unsupportedPattern "sh")) := by
  have hf : ∀ n, nmTest n = Except.ok (fTest n) := fun n => rfl
  refine ⟨⟨by decide, ?_⟩, ⟨by decide, by decide, ?_⟩, ⟨by decide, by decide, ?_⟩⟩
  · exact (shift_right_carry_policy false nmTest fTest hf shrInstG impSt0
      (by intro p hp; simp [impSt0, emptyModule] at hp) rfl gndNet rfl).1 (by decide)
  · exact (shift_right_carry_policy false nmTest fTest hf { shrInstG with cin := some netA } impSt0
      (by intro p hp; simp [impSt0, emptyModule] at hp) rfl netA rfl).2.1 (by decide) (by decide)
  · exact (shift_right_carry_policy false nmTest fTest hf { shrInstG with cin := some netB } impSt0
      (by intro p hp; simp [impSt0, emptyModule] at hp) rfl netB rfl).2.2 (by decide) (by decide)

/-- The cell table at a PRIM_DFFRS instance is exactly the four-way set/reset
dispatch of the source. -/
theorem cells_dffrs (nm : Net → Except TErr SigBit) (inst : Instance) (m : RModule)
    (hitype : inst.itype = InstType.PRIM_DFFRS) :
    import_netlist_instance_cells nm inst m = (do
      let s ← reqNet inst.set
      let r ← reqNet inst.reset
      if s.isGnd ∧ r.isGnd then do
        let c ← nmOf nm inst.clock
        let d ← nmOf nm inst.input
        let q ← nmOf nm inst.output
        Except.ok (true, addCell m (Cell.typed (some (escape_id inst.name)) CellType.cDff false [[c], [d], [q]]))
      else if s.isGnd then do
        let c ← nmOf nm inst.clock
        let rb ← nm r
        let d ← nmOf nm inst.input
        let q ← nmOf nm inst.output
        Except.ok (true, addCell m (Cell.typed (some (escape_id inst.name)) (CellType.cAdff BitState.S0) false [[c], [rb], [d], [q]]))
      else if r.isGnd then do
        let c ← nmOf nm inst.clock
        let sb ← nm s
        let d ← nmOf nm inst.input
        let q ← nmOf nm inst.output
        Except.ok (true, addCell m (Cell.typed (some (escape_id inst.name)) (CellType.cAdff BitState.S1) false [[c], [sb], [d], [q]]))
      else do
        let c ← nmOf nm inst.clock
        let sb ← nm s
        let rb ← nm r
        let d ← nmOf nm inst.input
        let q ← nmOf nm inst.output
        Except.ok (true, addCell m (Cell.typed (some (escape_id inst.name)) CellType.cDffsr false [[c], [sb], [rb], [d], [q]]))) := by
  simp [import_netlist_instance_cells, hitype]

/-- The cell table at a PRIM_DLATCHRS instance is exactly the two-way dispatch
of the source. -/
theorem cells_dlatchrs (nm : Net → Except TErr SigBit) (inst : Instance) (m : RModule)
    (hitype : inst.itype = InstType.PRIM_DLATCHRS) :
    import_netlist_instance_cells nm inst m = (do
      let s ← reqNet inst.set
      let r ← reqNet inst.reset
      if s.isGnd ∧ r.isGnd then do
        let e ← nmOf nm inst.control
        let d ← nmOf nm inst.input
        let q ← nmOf nm inst.output
        Except.ok (true, addCell m (Cell.typed (some (escape_id inst.name)) CellType.cDlatch false [[e], [d], [q]]))
      else do
        let e ← nmOf nm inst.control
        let sb ← nm s
        let rb ← nm r
        let d ← nmOf nm inst.input
        let q ← nmOf nm inst.output
        Except.ok (true, addCell m (Cell.typed (some (escape_id inst.name)) CellType.cDlatchsr false [[e], [sb], [rb], [d], [q]]))) := by
  simp [import_netlist_instance_cells, hitype]

/-- The cell table at an OPER_WIDE_DFFRS instance is exactly the two-way
all-bits-constant-false dispatch of the source. -/
theorem cells_wide_dffrs (nm : Net → Except TErr SigBit) (inst : Instance) (m : RModule)
    (hitype : inst.itype = InstType.OPER_WIDE_DFFRS) :
    import_netlist_instance_cells nm inst m = (do
      let sig_set ← operatorInport nm inst.setPort
      let sig_reset ← operatorInport nm inst.resetPort
      if is_fully_const sig_set ∧ ¬ as_bool sig_set ∧ is_fully_const sig_reset ∧ ¬ as_bool sig_reset then do
        let c ← nmOf nm inst.clock
        let d ← operatorInput nm inst
        let (q, m1) ← operatorOutput nm inst m
        Except.ok (true, addCell m1 (Cell.typed (some (escape_id inst.name)) CellType.cDff false [[c], d, q]))
      else do
        let c ← nmOf nm inst.clock
        let d ← operatorInput nm inst
        let (q, m1) ← operatorOutput nm inst m
        Except.ok (true, addCell m1 (Cell.typed (some (escape_id inst.name)) CellType.cDffsr false [[c], sig_set, sig_reset, d, q]))) := by
  simp [import_netlist_instance_cells, hitype]

/-- C2-counterexample: a set/reset latch with exactly one pin grounded (set on
ground, reset on a plain net) is translated to the full set/reset latch cell
$dlatchsr — the same cell kind as the neither-grounded case and not an
async-reset or async-preset register — and the word-level OPER_WIDE_DFFRS with
all-false set and non-constant reset likewise yields the full $dffsr rather
than an async register: the claimed four-way reduction does not exist for the
latch or for the word-level variant. -/
theorem dlatchrs_one_ground_counterexample :
    (latchCexOne.set = some gndNet ∧ gndNet.isGnd = true ∧
      latchCexOne.reset = some netA ∧ netA.isGnd = false) ∧
    import_netlist_instance_cells nmTest latchCexOne emptyModule =
      Except.ok (true, addCell emptyModule (Cell.typed (some (escape_id "lt")) CellType.cDlatchsr false [[SigBit.wire 1000 3], [SigBit.wire 1000 1], [SigBit.wire 1000 2], [SigBit.wire 1000 2], [SigBit.wire 1000 3]])) ∧
    import_netlist_instance_cells nmTest latchCexBoth emptyModule =
      Except.ok (true, addCell emptyModule (Cell.typed (some (escape_id "lt")) CellType.cDlatchsr false [[SigBit.wire 1000 3], [SigBit.wire 1000 3], [SigBit.wire 1000 2], [SigBit.wire 1000 2], [SigBit.wire 1000 3]])) ∧
    import_netlist_instance_cells nmTest wideDffCex emptyModule =
      Except.ok (true, addCell emptyModule (Cell.typed (some (escape_id "wd")) CellType.cDffsr false [[SigBit.wire 1000 3], [SigBit.const BitState.S0], [SigBit.wire 1000 2], [SigBit.wire 1000 2], [SigBit.wire 1000 3]])) ∧
    CellType.cDlatchsr ≠ CellType.cAdff BitState.S0 ∧
    CellType.cDlatchsr ≠ CellType.cAdff BitState.S1 ∧
    CellType.cDffsr ≠ CellType.cAdff BitState.S0 ∧
    CellType.cDffsr ≠ CellType.cAdff BitState.S1 := by
  refine ⟨⟨rfl, rfl, rfl, rfl⟩, by decide, by decide, by decide, by decide, by decide, by decide, by decide⟩

/-- C2-amended: the single-bit set/reset flip-flop (PRIM_DFFRS) has the
four-way reduction — both pins ground: plain $dff; only set ground: $adff
clearing to 0 on the reset pin; only reset ground: $adff presetting to 1 on
the set pin; neither: full $dffsr.  The set/reset latch (PRIM_DLATCHRS) has
only a two-way reduction — both ground: plain $dlatch, anything else: full
$dlatchsr.  The word-level variant (OPER_WIDE_DFFRS) likewise has only a
two-way reduction, testing both inport signals fully-constant with no 1 bit —
both all-false: plain $dff, anything else: full $dffsr. -/
theorem ffrs_reduction_amended (nm : Net → Except TErr SigBit) (f : Net → SigBit)
    (hf : ∀ n, nm n = Except.ok (f n)) :
    (∀ (inst : Instance) (m : RModule) (s r ck d q : Net),
      inst.itype = InstType.PRIM_DFFRS → inst.set = some s → inst.reset = some r →
      inst.clock = some ck → inst.input = some d → inst.output = some q →
      ((s.isGnd = true → r.isGnd = true →
        import_netlist_instance_cells nm inst m = Except.ok (true, addCell m (Cell.typed (some (escape_id inst.name)) CellType.cDff false [[f ck], [f d], [f q]]))) ∧
       (s.isGnd = true → r.isGnd = false →
        import_netlist_instance_cells nm inst m = Except.ok (true, addCell m (Cell.typed (some (escape_id inst.name)) (CellType.cAdff BitState.S0) false [[f ck], [f r], [f d], [f q]]))) ∧
       (s.isGnd = false → r.isGnd = true →
        import_netlist_instance_cells nm inst m = Except.ok (true, addCell m (Cell.typed (some (escape_id inst.name)) (CellType.cAdff BitState.S1) false [[f ck], [f s], [f d], [f q]]))) ∧
       (s.isGnd = false → r.isGnd = false →
        import_netlist_instance_cells nm inst m = Except.ok (true, addCell m (Cell.typed (some (escape_id inst.name)) CellType.cDffsr false [[f ck], [f s], [f r], [f d], [f q]]))))) ∧
    (∀ (inst : Instance) (m : RModule) (s r e d q : Net),
      inst.itype = InstType.PRIM_DLATCHRS → inst.set = some s → inst.reset = some r →
      inst.control = some e → inst.input = some d → inst.output = some q →
      ((s.isGnd = true → r.isGnd = true →
        import_netlist_instance_cells nm inst m = Except.ok (true, addCell m (Cell.typed (some (escape_id inst.name)) CellType.cDlatch false [[f e], [f d], [f q]]))) ∧
       (¬ (s.isGnd = true ∧ r.isGnd = true) →
        import_netlist_instance_cells nm inst m = Except.ok (true, addCell m (Cell.typed (some (escape_id inst.name)) CellType.cDlatchsr false [[f e], [f s], [f r], [f d], [f q]]))))) ∧
    (∀ (inst : Instance) (m : RModule) (ck : Net) (ss rs : SigSpec),
      inst.itype = InstType.OPER_WIDE_DFFRS → wires_wf m →
      operatorInport nm inst.setPort = Except.ok ss →
      operatorInport nm inst.resetPort = Except.ok rs →
      inst.clock = some ck →
      (((is_fully_const ss ∧ ¬ as_bool ss ∧ is_fully_const rs ∧ ¬ as_bool rs) →
        ∃ m1, import_netlist_instance_cells nm inst m = Except.ok (true, addCell m1 (Cell.typed (some (escape_id inst.name)) CellType.cDff false [[f ck], operator_bits_pure f inst.inputBits.reverse, out_bits_pure f m.nextId none inst.outputBits.reverse])) ∧ m1.cells = m.cells) ∧
       (¬ (is_fully_const ss ∧ ¬ as_bool ss ∧ is_fully_const rs ∧ ¬ as_bool rs) →
        ∃ m1, import_netlist_instance_cells nm inst m = Except.ok (true, addCell m1 (Cell.typed (some (escape_id inst.name)) CellType.cDffsr false [[f ck], ss, rs, operator_bits_pure f inst.inputBits.reverse, out_bits_pure f m.nextId none inst.outputBits.reverse])) ∧ m1.cells = m.cells))) := by
  refine ⟨?_, ?_, ?_⟩
  · intro inst m s r ck d q hitype hs hr hck hd hq
    have heq := cells_dffrs nm inst m hitype
    refine ⟨?_, ?_, ?_, ?_⟩ <;> intro h1 h2 <;> rw [heq] <;>
      simp [reqNet, nmOf, hs, hr, hck, hd, hq, h1, h2, hf, Bind.bind, Except.bind]
  · intro inst m s r e d q hitype hs hr he hd hq
    have heq := cells_dlatchrs nm inst m hitype
    constructor
    · intro h1 h2
      rw [heq]
      simp [reqNet, nmOf, hs, hr, he, hd, hq, h1, h2, hf, Bind.bind, Except.bind]
    · intro h12
      rw [heq]
      simp [reqNet, nmOf, hs, hr, he, hd, hq, h12, hf, Bind.bind, Except.bind]
  · intro inst m ck ss rs hitype hwf hss hrs hck
    have heq := cells_wide_dffrs nm inst m hitype
    have ha := operator_bits_ok nm f hf inst.inputBits.reverse
    obtain ⟨m1, hout, hcells, _, _, _, _, _⟩ := operatorOutput_ok nm f hf inst m hwf
    constructor
    · intro hcond
      refine ⟨m1, ?_, hcells⟩
      rw [heq]
      simp only [hss, hrs, Bind.bind, Except.bind]
      rw [if_pos hcond]
      simp [nmOf, reqNet, hck, hf, operatorInput, ha, hout, Bind.bind, Except.bind]
    · intro hcond
      refine ⟨m1, ?_, hcells⟩
      rw [heq]
      simp only [hss, hrs, Bind.bind, Except.bind]
      rw [if_neg hcond]
      simp [nmOf, reqNet, hck, hf, operatorInput, ha, hout, Bind.bind, Except.bind]

/-- Witness for C2-amended at concrete instances: a flip-flop with only the
set pin grounded becomes an async-clear register; the same wiring on a latch
becomes the full set/reset latch. -/
theorem ffrs_reduction_amended_witness :
    (gndNet.isGnd = true ∧ netA.isGnd = false ∧
      import_netlist_instance_cells nmTest { latchCexOne with itype := InstType.PRIM_DFFRS, clock := some netB } emptyModule =
        Except.ok (true, addCell emptyModule (Cell.typed (some (escape_id "lt")) (CellType.cAdff BitState.S0) false [[fTest netB], [fTest netA], [fTest netA], [fTest netB]]))) ∧
    (¬ (gndNet.isGnd = true ∧ netA.isGnd = true) ∧
      import_netlist_instance_cells nmTest latchCexOne emptyModule =
        Except.ok (true, addCell emptyModule (Cell.typed (some (escape_id "lt")) CellType.cDlatchsr false [[fTest netB], [fTest gndNet], [fTest netA], [fTest netA], [fTest netB]]))) := by
  have hf : ∀ n, nmTest n = Except.ok (fTest n) := fun n => rfl
  constructor
  · refine ⟨rfl, rfl, ?_⟩
    exact ((ffrs_reduction_amended nmTest fTest hf).1
      { latchCexOne with itype := InstType.PRIM_DFFRS, clock := some netB } emptyModule
      gndNet netA netB netA netB rfl rfl rfl rfl rfl rfl).2.1 rfl rfl
  · refine ⟨by decide, ?_⟩
    exact ((ffrs_reduction_amended nmTest fTest hf).2.1 latchCexOne emptyModule
      gndNet netA netB netA netB rfl rfl rfl rfl rfl rfl).2 (by decide)

/-- With a total resolution function one portref step always succeeds and
never touches the cells. -/
theorem add_portref_ok (nm : Net → Except TErr SigBit) (f : Net → SigBit)
    (hf : ∀ n, nm n = Except.ok (f n)) (m : RModule) (conns : List (String × SigSpec))
    (pr : PortRefConn) :
    ∃ r, add_portref nm (m, conns) pr = Except.ok r ∧ r.1.cells = m.cells := by
  by_cases hlen : ((alookup conns (escape_id pr.pname)).getD []).length ≤ pr.offset
  · simp only [add_portref, hf, Bind.bind, Except.bind]
    rw [if_pos hlen]
    exact ⟨_, rfl, rfl⟩
  · simp only [add_portref, hf, Bind.bind, Except.bind]
    rw [if_neg hlen]
    exact ⟨_, rfl, rfl⟩

/-- With a total resolution function the portref fold always succeeds and
never touches the cells. -/
theorem fold_portrefs_ok (nm : Net → Except TErr SigBit) (f : Net → SigBit)
    (hf : ∀ n, nm n = Except.ok (f n)) :
    ∀ (prs : List PortRefConn) (m : RModule) (conns : List (String × SigSpec)),
      ∃ r, fold_portrefs nm m conns prs = Except.ok r ∧ r.1.cells = m.cells := by
  intro prs
  induction prs with
  | nil => intro m conns; exact ⟨(m, conns), rfl, rfl⟩
  | cons pr rest ih =>
      intro m conns
      obtain ⟨r1, hstep, hc1⟩ := add_portref_ok nm f hf m conns pr
      obtain ⟨r', hrest, hc'⟩ := ih r1.1 r1.2
      refine ⟨r', ?_, by rw [hc', hc1]⟩
      simp [fold_portrefs, hstep, hrest, Bind.bind, Except.bind]

/-- C9: An instance whose type neither the active translation table nor the
fixed special-case handlers recognize and whose view is a primitive: strict
mode (no -k) aborts the import with the fatal unsupported-primitive error;
permissive mode (-k) records the warning, enqueues the instance's netlist for
traversal, and adds the opaque black-box placeholder cell for the instance. -/
theorem unsupported_primitive_modes (mode_gates mode_keep : Bool)
    (nm : Net → Except TErr SigBit) (f : Net → SigBit)
    (hf : ∀ n, nm n = Except.ok (f n)) (inst : Instance) (st : ImpSt)
    (hspec : special_handled inst.itype = false)
    (htab : (if mode_gates then gates_handles inst.itype else cells_handles inst.itype) = false)
    (hprim : inst.isPrimitive = true) :
    (mode_keep = false →
      import_instance mode_gates mode_keep nm inst st =
        Except.error (TErr.unsupportedPrimitive inst.name inst.viewOwnerName)) ∧
    (mode_keep = true →
      ∃ st', import_instance mode_gates mode_keep nm inst st = Except.ok st' ∧
        st'.todo = st.todo ++ [inst.viewId] ∧
        primitive_warning inst ∈ st'.warnings ∧
        ∃ cc, st'.mod.cells = st.mod.cells ++ [Cell.box (escape_id inst.name) (if inst.isOperator then "$verific$" ++ inst.viewOwnerName else escape_id inst.viewOwnerName) cc]) := by
  rw [import_instance_not_special mode_gates mode_keep nm inst st hspec]
  cases mode_gates with
  | false =>
      have hfall : import_netlist_instance_cells nm inst st.mod = Except.ok (false, st.mod) :=
        cells_not_handled nm inst st.mod (by simpa using htab)
      constructor
      · intro hk
        subst hk
        simp [import_instance_tail, hfall, hprim, Bind.bind, Except.bind]
      · intro hk
        subst hk
        obtain ⟨r, hfold, hcells⟩ := fold_portrefs_ok nm f hf inst.portRefs st.mod []
        by_cases hop : inst.isOperator = true
        · have hrun : import_instance_tail false true nm inst st =
              Except.ok (ImpSt.mk (addCell r.1 (Cell.box (escape_id inst.name) (if inst.isOperator then "$verific$" ++ inst.viewOwnerName else escape_id inst.viewOwnerName) r.2)) (st.todo ++ [inst.viewId]) (st.warnings ++ [operator_warning inst] ++ [primitive_warning inst]) st.sva_posedge_map) := by
            simp [import_instance_tail, hfall, hprim, hop, hfold, Bind.bind, Except.bind]
          exact ⟨_, hrun, by simp, by simp, r.2, by simp [addCell, hcells]⟩
        · have hrun : import_instance_tail false true nm inst st =
              Except.ok (ImpSt.mk (addCell r.1 (Cell.box (escape_id inst.name) (if inst.isOperator then "$verific$" ++ inst.viewOwnerName else escape_id inst.viewOwnerName) r.2)) (st.todo ++ [inst.viewId]) (st.warnings ++ [primitive_warning inst]) st.sva_posedge_map) := by
            simp [import_instance_tail, hfall, hprim, hop, hfold, Bind.bind, Except.bind]
          exact ⟨_, hrun, by simp, by simp, r.2, by simp [addCell, hcells]⟩
  | true =>
      have hfall : import_netlist_instance_gates nm inst st.mod = Except.ok (false, st.mod) :=
        gates_not_handled nm inst st.mod (by simpa using htab)
      constructor
      · intro hk
        subst hk
        simp [import_instance_tail, hfall, hprim, Bind.bind, Except.bind]
      · intro hk
        subst hk
        obtain ⟨r, hfold, hcells⟩ := fold_portrefs_ok nm f hf inst.portRefs st.mod []
        have hrun : import_instance_tail true true nm inst st =
            Except.ok (ImpSt.mk (addCell r.1 (Cell.box (escape_id inst.name) (if inst.isOperator then "$verific$" ++ inst.viewOwnerName else escape_id inst.viewOwnerName) r.2)) (st.todo ++ [inst.viewId]) (st.warnings ++ [primitive_warning inst]) st.sva_posedge_map) := by
          simp [import_instance_tail, hfall, hprim, hfold, Bind.bind, Except.bind]
        exact ⟨_, hrun, by simp, by simp, r.2, by simp [addCell, hcells]⟩

/-- Witness for C9 at a concrete unknown primitive: strict mode errors,
permissive mode warns, enqueues netlist 7 and adds the placeholder. -/
theorem unsupported_primitive_modes_witness :
    (special_handled unkPrimInst.itype = false ∧
      cells_handles unkPrimInst.itype = false ∧ unkPrimInst.isPrimitive = true ∧
      import_instance false false nmTest unkPrimInst impSt0 =
        Except.error (TErr.unsupportedPrimitive "u" "UNKNOWN_PRIM")) ∧
    (∃ st', import_instance false true nmTest unkPrimInst impSt0 = Except.ok st' ∧
      st'.todo = impSt0.todo ++ [unkPrimInst.viewId] ∧
      primitive_warning unkPrimInst ∈ st'.warnings ∧
      ∃ cc, st'.mod.cells = impSt0.mod.cells ++ [Cell.box (escape_id unkPrimInst.name) (if unkPrimInst.isOperator then "$verific$" ++ unkPrimInst.viewOwnerName else escape_id unkPrimInst.viewOwnerName) cc]) := by
  have hf : ∀ n, nmTest n = Except.ok (fTest n) := fun n => rfl
  constructor
  · exact ⟨rfl, rfl, rfl,
      (unsupported_primitive_modes false false nmTest fTest hf unkPrimInst impSt0 rfl rfl rfl).1 rfl⟩
  · exact (unsupported_primitive_modes false true nmTest fTest hf unkPrimInst impSt0 rfl rfl rfl).2 rfl

/-- PathUp at length zero means the owner already is the target netlist. -/
theorem pathup_zero (h : Hier) (nl o : Nat) (hp : PathUp h nl o 0) : o = nl := by
  cases hp
  rfl

/-- Inversion of a PathUp step. -/
theorem pathup_succ (h : Hier) (nl o k : Nat) (hp : PathUp h nl o (k + 1)) :
    o ≠ nl ∧ h.numRefs o = 1 ∧ h.refOwner o ≠ o ∧ PathUp h nl (h.refOwner o) k := by
  cases hp with
  | step _ _ h1 h2 h3 h4 => exact ⟨h1, h2, h3, h4⟩

/-- get_net_level_up keeps the memo invariant. -/
theorem get_net_level_up_wf (h : Hier) (st : ExtSt) (net : Net) (hwf : memo_wf h st) :
    memo_wf h (get_net_level_up h st net).2 := by
  unfold get_net_level_up
  cases hl : alookup st.net_level_up net with
  | some v => exact hwf
  | none =>
      by_cases hn : h.numRefs net.owner ≠ 1
      · simp only [if_pos hn]
        exact hwf
      · simp only [if_neg hn]
        intro p hp
        simp at hp
        rcases hp with hp | hp
        · exact hwf p hp
        · rw [hp]
          exact ⟨show h.numRefs net.owner = 1 by omega, rfl⟩

/-- On a singly-instantiated owner, get_net_level_up moves the net exactly one
level up (whether memoized or freshly created) and keeps the memo invariant. -/
theorem get_net_level_up_step (h : Hier) (st : ExtSt) (net : Net)
    (hwf : memo_wf h st) (h1 : h.numRefs net.owner = 1) :
    (get_net_level_up h st net).1.owner = h.refOwner net.owner ∧
      memo_wf h (get_net_level_up h st net).2 := by
  refine ⟨?_, get_net_level_up_wf h st net hwf⟩
  unfold get_net_level_up
  cases hl : alookup st.net_level_up net with
  | some v =>
      exact (hwf (net, v) (alookup_mem _ _ _ hl)).2
  | none =>
      simp only [if_neg (by omega : ¬ h.numRefs net.owner ≠ 1)]

/-- fix_net keeps the memo invariant. -/
theorem fix_net_wf (h : Hier) (nl : Nat) :
    ∀ (fuel : Nat) (net : Net) (st : ExtSt), memo_wf h st →
      memo_wf h (fix_net h nl fuel net st).2 := by
  intro fuel
  induction fuel with
  | zero => intro net st hwf; exact hwf
  | succ f ih =>
      intro net st hwf
      by_cases ho : net.owner = nl
      · simpa [fix_net, ho] using hwf
      · have hwf2 := get_net_level_up_wf h st net hwf
        by_cases hr : (get_net_level_up h st net).1 = net
        · simpa [fix_net, ho, hr] using hwf2
        · simpa [fix_net, ho, hr] using ih _ _ hwf2

/-- Along an upward chain of singly-instantiated netlists the fix_net walk
reaches the importing netlist. -/
theorem fix_net_success (h : Hier) (nl : Nat) :
    ∀ (k : Nat) (net : Net) (st : ExtSt) (fuel : Nat), memo_wf h st →
      PathUp h nl net.owner k → k < fuel →
      (fix_net h nl fuel net st).1.owner = nl := by
  intro k
  induction k with
  | zero =>
      intro net st fuel hwf hp hfu
      have ho : net.owner = nl := pathup_zero h nl net.owner hp
      cases fuel with
      | zero => omega
      | succ f => simp [fix_net, ho]
  | succ k ih =>
      intro net st fuel hwf hp hfu
      obtain ⟨hne, h1, h2, hp'⟩ := pathup_succ h nl net.owner k hp
      cases fuel with
      | zero => omega
      | succ f =>
          have hstep := get_net_level_up_step h st net hwf h1
          have hneq : ¬ (get_net_level_up h st net).1 = net := by
            intro hcontra
            rw [hcontra] at hstep
            exact h2 hstep.1.symm
          have hred : fix_net h nl (f + 1) net st =
              fix_net h nl f (get_net_level_up h st net).1 (get_net_level_up h st net).2 := by
            simp [fix_net, hne, hneq]
          rw [hred]
          apply ih
          · exact hstep.2
          · rw [hstep.1]
            exact hp'
          · omega

/-- C8-counterexample: a reference in netlist 1 to a net owned by its strict
ancestor, the root netlist 0, stays connected to the very same
ancestor-owned net after the resolver runs — the walk of get_net_level_up
moves nets upward, away from the referencing netlist, and the root has no
instantiation site to hang a new port on — even though no netlist involved has
more than one instantiation site. -/
theorem extnets_ancestor_counterexample :
    cexNetR.owner = 0 ∧ cexHier.numRefs 0 = 0 ∧ cexHier.numRefs 1 = 1 ∧
    (run_refs cexHier 1 10 [cexRef] extSt0).1 = [(cexRef, cexNetR)] ∧
    cexNetR.owner ≠ 1 := by
  exact ⟨rfl, rfl, rfl, by decide, by decide⟩

/-- C8-amended: after the resolver runs, an instance port reference whose net
is owned by a strict descendant netlist, every netlist on the upward path
having exactly one instantiation site, is reconnected to a net owned by the
referencing netlist itself (no longer external); a reference whose net's
owning netlist does not have exactly one instantiation site is left on the
original (still external) net, without any fatal condition — and a whole scan
maps every such resolvable reference to a non-external net. -/
theorem extnets_resolution_amended (h : Hier) (nl : Nat) :
    (∀ (net : Net) (st : ExtSt) (k fuel : Nat), memo_wf h st →
      PathUp h nl net.owner k → k < fuel →
      (fix_net h nl fuel net st).1.owner = nl) ∧
    (∀ (net : Net) (st : ExtSt) (fuel : Nat), net.owner ≠ nl →
      h.numRefs net.owner ≠ 1 → alookup st.net_level_up net = none →
      (fix_net h nl (fuel + 1) net st).1 = net) ∧
    (∀ (refs : List ERef) (st : ExtSt) (fuel : Nat), memo_wf h st →
      (∀ r ∈ refs, ∃ k, PathUp h nl r.net.owner k ∧ k < fuel) →
      ∀ p ∈ (run_refs h nl fuel refs st).1, p.2.owner = nl) := by
  refine ⟨fun net st k fuel hwf hp hfu => fix_net_success h nl k net st fuel hwf hp hfu, ?_, ?_⟩
  · intro net st fuel hne hnum hmiss
    simp [fix_net, hne, get_net_level_up, hmiss, hnum]
  · intro refs
    induction refs with
    | nil => intro st fuel hwf hrefs p hp; simp [run_refs] at hp
    | cons r rest ih =>
        intro st fuel hwf hrefs p hp
        by_cases ho : r.net.owner = nl
        · simp only [run_refs, if_pos ho] at hp
          rcases List.mem_cons.mp hp with hp | hp
          · rw [hp]
            exact ho
          · exact ih st fuel hwf (fun q hq => hrefs q (List.mem_cons_of_mem _ hq)) p hp
        · simp only [run_refs, if_neg ho] at hp
          rcases List.mem_cons.mp hp with hp | hp
          · obtain ⟨k, hpath, hfu⟩ := hrefs r (List.mem_cons_self _ _)
            rw [hp]
            exact fix_net_success h nl k r.net st fuel hwf hpath hfu
          · obtain ⟨k, hpath, hfu⟩ := hrefs r (List.mem_cons_self _ _)
            exact ih _ fuel (fix_net_wf h nl fuel r.net st hwf)
              (fun q hq => hrefs q (List.mem_cons_of_mem _ hq)) p hp

/-- Witness for C8-amended at a concrete three-level hierarchy: the net owned
by the grandchild netlist 2 resolves to a net of the root 0; a net whose owner
has no (hence not exactly one) instantiation site is left untouched. -/
theorem extnets_resolution_amended_witness :
    (memo_wf wHier extSt0 ∧ PathUp wHier 0 wNet.owner 2 ∧ 2 < 10 ∧
      (fix_net wHier 0 10 wNet extSt0).1.owner = 0) ∧
    (cexNetR.owner ≠ 1 ∧ cexHier.numRefs cexNetR.owner ≠ 1 ∧
      alookup extSt0.net_level_up cexNetR = none ∧
      (fix_net cexHier 1 (9 + 1) cexNetR extSt0).1 = cexNetR) ∧
    ((∀ r ∈ [wRef], ∃ k, PathUp wHier 0 r.net.owner k ∧ k < 10) ∧
      ∀ p ∈ (run_refs wHier 0 10 [wRef] extSt0).1, p.2.owner = 0) := by
  have hwf0 : memo_wf wHier extSt0 := by
    intro p hp
    simp [extSt0] at hp
  have hpath : PathUp wHier 0 2 2 :=
    PathUp.step 2 1 (by decide) (by decide) (by decide)
      (PathUp.step 1 0 (by decide) (by decide) (by decide) PathUp.refl)
  refine ⟨⟨hwf0, hpath, by decide, ?_⟩, ⟨by decide, by decide, by decide, ?_⟩, ?_, ?_⟩
  · exact (extnets_resolution_amended wHier 0).1 wNet extSt0 2 10 hwf0 hpath (by decide)
  · exact (extnets_resolution_amended cexHier 1).2.1 cexNetR extSt0 9 (by decide) (by decide) (by decide)
  · intro r hr
    rcases List.mem_cons.mp hr with hr | hr
    · exact ⟨2, by rw [hr]; exact hpath, by decide⟩
    · simp at hr
  · intro p hp
    refine (extnets_resolution_amended wHier 0).2.2 [wRef] extSt0 10 hwf0 ?_ p hp
    intro r hr
    rcases List.mem_cons.mp hr with hr | hr
    · exact ⟨2, by rw [hr]; exact hpath, by decide⟩
    · simp at hr

/-- The pure dummy-wire signal has one bit per output bit. -/
theorem out_bits_pure_length (f : Net → SigBit) :
    ∀ (l : List (Option Net)) (base : Nat) (d : Option (Nat × Nat)),
      (out_bits_pure f base d l).length = l.length := by
  intro l
  induction l with
  | nil => intro base d; cases d <;> rfl
  | cons ob rest ih =>
      intro base d
      cases ob with
      | some n => simp [out_bits_pure, ih]
      | none =>
          cases d with
          | none => simp [out_bits_pure, ih]
          | some wk =>
              obtain ⟨w, k⟩ := wk
              simp [out_bits_pure, ih]

/-- A connected output bit is its resolved net bit. -/
theorem out_bits_pure_connected (f : Net → SigBit) :
    ∀ (l : List (Option Net)) (base : Nat) (d : Option (Nat × Nat)) (p : Nat) (n : Net),
      l.get? p = some (some n) → (out_bits_pure f base d l).get? p = some (f n) := by
  intro l
  induction l with
  | nil => intro base d p n hp; simp at hp
  | cons ob rest ih =>
      intro base d p n hp
      cases p with
      | zero =>
          simp at hp
          subst hp
          cases d <;> simp [out_bits_pure]
      | succ p' =>
          simp at hp
          cases ob with
          | some n0 =>
              cases d <;> simpa [out_bits_pure] using ih base none p' n (by simpa using hp)
          | none =>
              cases d with
              | none => simpa [out_bits_pure] using ih (base + 1) (some (base, 1)) p' n (by simpa using hp)
              | some wk =>
                  obtain ⟨w, k⟩ := wk
                  simpa [out_bits_pure] using ih base (some (w, k + 1)) p' n (by simpa using hp)

/-- Inside one unconnected run the dummy wire stays the current one, offset
advancing with the position. -/
theorem out_bits_pure_run (f : Net → SigBit) :
    ∀ (l : List (Option Net)) (base w k p : Nat),
      (∀ i, i ≤ p → l.get? i = some none) →
      (out_bits_pure f base (some (w, k)) l).get? p = some (SigBit.wire w (k + p)) := by
  intro l
  induction l with
  | nil =>
      intro base w k p hall
      have := hall 0 (Nat.zero_le _)
      simp at this
  | cons ob rest ih =>
      intro base w k p hall
      have h0 := hall 0 (Nat.zero_le _)
      simp at h0
      subst h0
      cases p with
      | zero => simp [out_bits_pure]
      | succ p' =>
          have htail : (out_bits_pure f base (some (w, k + 1)) rest).get? p' = some (SigBit.wire w (k + 1 + p')) :=
            ih base w (k + 1) p' (fun i hi => by simpa using hall (i + 1) (by omega))
          simp only [out_bits_pure, List.get?_cons_succ]
          rw [htail]
          have : k + 1 + p' = k + (p' + 1) := by omega
          rw [this]

/-- All bits of one maximal unconnected run use the same dummy wire. -/
theorem out_bits_pure_share (f : Net → SigBit) :
    ∀ (l : List (Option Net)) (base : Nat) (d : Option (Nat × Nat)) (p q : Nat),
      p ≤ q → (∀ j, p ≤ j → j ≤ q → l.get? j = some none) →
      ∃ w o1 o2, (out_bits_pure f base d l).get? p = some (SigBit.wire w o1) ∧
        (out_bits_pure f base d l).get? q = some (SigBit.wire w o2) := by
  intro l
  induction l with
  | nil =>
      intro base d p q hpq hall
      have := hall p (Nat.le_refl _) hpq
      simp at this
  | cons ob rest ih =>
      intro base d p q hpq hall
      cases p with
      | zero =>
          have h0 := hall 0 (Nat.zero_le _) (Nat.zero_le _)
          simp at h0
          subst h0
          cases q with
          | zero =>
              cases d with
              | none => exact ⟨base, 0, 0, by simp [out_bits_pure], by simp [out_bits_pure]⟩
              | some wk =>
                  obtain ⟨w, k⟩ := wk
                  exact ⟨w, k, k, by simp [out_bits_pure], by simp [out_bits_pure]⟩
          | succ q' =>
              cases d with
              | none =>
                  refine ⟨base, 0, 1 + q', by simp [out_bits_pure], ?_⟩
                  simp only [out_bits_pure, List.get?_cons_succ]
                  exact out_bits_pure_run f rest (base + 1) base 1 q'
                    (fun i hi => by simpa using hall (i + 1) (Nat.zero_le _) (by omega))
              | some wk =>
                  obtain ⟨w, k⟩ := wk
                  refine ⟨w, k, k + 1 + q', by simp [out_bits_pure], ?_⟩
                  simp only [out_bits_pure, List.get?_cons_succ]
                  exact out_bits_pure_run f rest base w (k + 1) q'
                    (fun i hi => by simpa using hall (i + 1) (Nat.zero_le _) (by omega))
      | succ p' =>
          cases q with
          | zero => omega
          | succ q' =>
              have hall' : ∀ j, p' ≤ j → j ≤ q' → rest.get? j = some none :=
                fun j h1 h2 => by simpa using hall (j + 1) (by omega) (by omega)
              have hpq' : p' ≤ q' := by omega
              cases ob with
              | some n0 =>
                  obtain ⟨w, o1, o2, hp, hq⟩ := ih base none p' q' hpq' hall'
                  cases d <;> exact ⟨w, o1, o2, by simpa [out_bits_pure] using hp, by simpa [out_bits_pure] using hq⟩
              | none =>
                  cases d with
                  | none =>
                      obtain ⟨w, o1, o2, hp, hq⟩ := ih (base + 1) (some (base, 1)) p' q' hpq' hall'
                      exact ⟨w, o1, o2, by simpa [out_bits_pure] using hp, by simpa [out_bits_pure] using hq⟩
                  | some wk =>
                      obtain ⟨w0, k⟩ := wk
                      obtain ⟨w, o1, o2, hp, hq⟩ := ih base (some (w0, k + 1)) p' q' hpq' hall'
                      exact ⟨w, o1, o2, by simpa [out_bits_pure] using hp, by simpa [out_bits_pure] using hq⟩

/-- The wire of an unconnected position is the incoming dummy wire or a fresh
one at or above the base. -/
theorem out_bits_pure_wire_src (f : Net → SigBit) :
    ∀ (l : List (Option Net)) (base : Nat) (d : Option (Nat × Nat)) (q w o : Nat),
      l.get? q = some none →
      (out_bits_pure f base d l).get? q = some (SigBit.wire w o) →
      (∃ k0, d = some (w, k0)) ∨ base ≤ w := by
  intro l
  induction l with
  | nil => intro base d q w o hq _; simp at hq
  | cons ob rest ih =>
      intro base d q w o hq hw
      cases q with
      | zero =>
          simp at hq
          subst hq
          cases d with
          | none =>
              simp [out_bits_pure] at hw
              right
              omega
          | some wk =>
              obtain ⟨w0, k⟩ := wk
              simp [out_bits_pure] at hw
              exact Or.inl ⟨k, by rw [hw.1]⟩
      | succ q' =>
          rw [List.get?_cons_succ] at hq
          cases ob with
          | some n0 =>
              have hw' : (out_bits_pure f base none rest).get? q' = some (SigBit.wire w o) := by
                cases d <;> simpa [out_bits_pure] using hw
              rcases ih base none q' w o hq hw' with ⟨k0, hk⟩ | hge
              · simp at hk
              · exact Or.inr hge
          | none =>
              cases d with
              | none =>
                  have hw' : (out_bits_pure f (base + 1) (some (base, 1)) rest).get? q' = some (SigBit.wire w o) := by
                    simpa [out_bits_pure] using hw
                  rcases ih (base + 1) (some (base, 1)) q' w o hq hw' with ⟨k0, hk⟩ | hge
                  · right
                    have : w = base := by
                      have := hk
                      simp at this
                      omega
                    omega
                  · right
                    omega
              | some wk =>
                  obtain ⟨w0, k⟩ := wk
                  have hw' : (out_bits_pure f base (some (w0, k + 1)) rest).get? q' = some (SigBit.wire w o) := by
                    simpa [out_bits_pure] using hw
                  rcases ih base (some (w0, k + 1)) q' w o hq hw' with ⟨k0, hk⟩ | hge
                  · left
                    have : w0 = w := by
                      have := hk
                      simp at this
                      omega
                    exact ⟨k, by rw [this]⟩
                  · exact Or.inr hge

/-- An unconnected position that comes after some connected position gets a
wire at or above the base (the dummy was reset in between). -/
theorem out_bits_pure_after_connected (f : Net → SigBit) :
    ∀ (l : List (Option Net)) (base : Nat) (d : Option (Nat × Nat)) (q w o : Nat),
      (∀ w0 k0, d = some (w0, k0) → w0 < base) →
      (∃ j, j < q ∧ ∃ n, l.get? j = some (some n)) →
      l.get? q = some none →
      (out_bits_pure f base d l).get? q = some (SigBit.wire w o) →
      base ≤ w := by
  intro l
  induction l with
  | nil => intro base d q w o hd hconn hq hw; simp at hq
  | cons ob rest ih =>
      intro base d q w o hd hconn hq hw
      obtain ⟨j, hj, n, hln⟩ := hconn
      cases q with
      | zero => omega
      | succ q' =>
          rw [List.get?_cons_succ] at hq
          cases ob with
          | some n0 =>
              have hw' : (out_bits_pure f base none rest).get? q' = some (SigBit.wire w o) := by
                cases d <;> simpa [out_bits_pure] using hw
              rcases out_bits_pure_wire_src f rest base none q' w o hq hw' with ⟨k0, hk⟩ | hge
              · simp at hk
              · exact hge
          | none =>
              have hj0 : j ≠ 0 := by
                intro hj0
                rw [hj0] at hln
                simp at hln
              obtain ⟨j', rfl⟩ : ∃ j', j = j' + 1 := ⟨j - 1, by omega⟩
              have hln' : rest.get? j' = some (some n) := by simpa using hln
              cases d with
              | none =>
                  have hw' : (out_bits_pure f (base + 1) (some (base, 1)) rest).get? q' = some (SigBit.wire w o) := by
                    simpa [out_bits_pure] using hw
                  have := ih (base + 1) (some (base, 1)) q' w o
                    (fun w0 k0 hk => by simp at hk; omega)
                    ⟨j', by omega, n, hln'⟩ hq hw'
                  omega
              | some wk =>
                  obtain ⟨w0, k⟩ := wk
                  have hw' : (out_bits_pure f base (some (w0, k + 1)) rest).get? q' = some (SigBit.wire w o) := by
                    simpa [out_bits_pure] using hw
                  exact ih base (some (w0, k + 1)) q' w o
                    (fun w1 k1 hk => by simp at hk; have := hd w0 k rfl; omega)
                    ⟨j', by omega, n, hln'⟩ hq hw'

/-- Unconnected runs separated by a connected bit use strictly increasing,
hence distinct, dummy wires. -/
theorem out_bits_pure_separate (f : Net → SigBit) :
    ∀ (l : List (Option Net)) (base : Nat) (d : Option (Nat × Nat)) (p j q w1 o1 w2 o2 : Nat),
      (∀ w0 k0, d = some (w0, k0) → w0 < base) →
      p < j → j < q →
      l.get? p = some none → (∃ n, l.get? j = some (some n)) → l.get? q = some none →
      (out_bits_pure f base d l).get? p = some (SigBit.wire w1 o1) →
      (out_bits_pure f base d l).get? q = some (SigBit.wire w2 o2) →
      w1 < w2 := by
  intro l
  induction l with
  | nil => intro base d p j q w1 o1 w2 o2 hd hpj hjq hp hj hq hw1 hw2; simp at hp
  | cons ob rest ih =>
      intro base d p j q w1 o1 w2 o2 hd hpj hjq hp hj hq hw1 hw2
      cases p with
      | zero =>
          simp at hp
          subst hp
          obtain ⟨j', rfl⟩ : ∃ j', j = j' + 1 := ⟨j - 1, by omega⟩
          obtain ⟨q', rfl⟩ : ∃ q', q = q' + 1 := ⟨q - 1, by omega⟩
          obtain ⟨n, hln⟩ := hj
          have hln' : rest.get? j' = some (some n) := by simpa using hln
          have hq' : rest.get? q' = some none := by simpa using hq
          cases d with
          | none =>
              have hw1' : base = w1 := by
                simp [out_bits_pure] at hw1
                exact hw1.1
              have hw2' : (out_bits_pure f (base + 1) (some (base, 1)) rest).get? q' = some (SigBit.wire w2 o2) := by
                simpa [out_bits_pure] using hw2
              have hge := out_bits_pure_after_connected f rest (base + 1) (some (base, 1)) q' w2 o2
                (fun w0 k0 hk => by simp at hk; omega)
                ⟨j', by omega, n, hln'⟩ hq' hw2'
              omega
          | some wk =>
              obtain ⟨w0, k⟩ := wk
              have hdlt := hd w0 k rfl
              have hw1' : w0 = w1 := by
                simp [out_bits_pure] at hw1
                exact hw1.1
              have hw2' : (out_bits_pure f base (some (w0, k + 1)) rest).get? q' = some (SigBit.wire w2 o2) := by
                simpa [out_bits_pure] using hw2
              have hge := out_bits_pure_after_connected f rest base (some (w0, k + 1)) q' w2 o2
                (fun w1' k1 hk => by simp at hk; omega)
                ⟨j', by omega, n, hln'⟩ hq' hw2'
              omega
      | succ p' =>
          obtain ⟨j', rfl⟩ : ∃ j', j = j' + 1 := ⟨j - 1, by omega⟩
          obtain ⟨q', rfl⟩ : ∃ q', q = q' + 1 := ⟨q - 1, by omega⟩
          have hp' : rest.get? p' = some none := by simpa using hp
          have hq' : rest.get? q' = some none := by simpa using hq
          obtain ⟨n, hln⟩ := hj
          have hln' : rest.get? j' = some (some n) := by simpa using hln
          cases ob with
          | some n0 =>
              have hw1' : (out_bits_pure f base none rest).get? p' = some (SigBit.wire w1 o1) := by
                cases d <;> simpa [out_bits_pure] using hw1
              have hw2' : (out_bits_pure f base none rest).get? q' = some (SigBit.wire w2 o2) := by
                cases d <;> simpa [out_bits_pure] using hw2
              exact ih base none p' j' q' w1 o1 w2 o2 (fun w0 k0 hk => by simp at hk)
                (by omega) (by omega) hp' ⟨n, hln'⟩ hq' hw1' hw2'
          | none =>
              cases d with
              | none =>
                  have hw1' : (out_bits_pure f (base + 1) (some (base, 1)) rest).get? p' = some (SigBit.wire w1 o1) := by
                    simpa [out_bits_pure] using hw1
                  have hw2' : (out_bits_pure f (base + 1) (some (base, 1)) rest).get? q' = some (SigBit.wire w2 o2) := by
                    simpa [out_bits_pure] using hw2
                  exact ih (base + 1) (some (base, 1)) p' j' q' w1 o1 w2 o2
                    (fun w0 k0 hk => by simp at hk; omega)
                    (by omega) (by omega) hp' ⟨n, hln'⟩ hq' hw1' hw2'
              | some wk =>
                  obtain ⟨w0, k⟩ := wk
                  have hdlt := hd w0 k rfl
                  have hw1' : (out_bits_pure f base (some (w0, k + 1)) rest).get? p' = some (SigBit.wire w1 o1) := by
                    simpa [out_bits_pure] using hw1
                  have hw2' : (out_bits_pure f base (some (w0, k + 1)) rest).get? q' = some (SigBit.wire w2 o2) := by
                    simpa [out_bits_pure] using hw2
                  exact ih base (some (w0, k + 1)) p' j' q' w1 o1 w2 o2
                    (fun w1' k1 hk => by simp at hk; omega)
                    (by omega) (by omega) hp' ⟨n, hln'⟩ hq' hw1' hw2'

/-- C10: For every operator instance translated in cell mode, translation is
total with respect to partially connected operands.  With a resolution
function that succeeds on every connected net: operatorInput succeeds and
every unconnected input bit contributes a constant Z bit to the operand
signal; operatorOutput on a well-formed module succeeds, producing one bit
per output bit, where connected positions carry their resolved net bit,
every unconnected position carries a bit of a dummy wire freshly created at
or above the module's fresh-id base, a maximal run of consecutive
unconnected positions shares one dummy wire, and unconnected runs separated
by a connected position use distinct dummy wires.  Translation never fails
merely because operand or result bits are unconnected. -/
theorem operator_partial_connection_total (nm : Net → Except TErr SigBit)
    (f : Net → SigBit) (hf : ∀ n, nm n = Except.ok (f n))
    (inst : Instance) (m : RModule) (hwf : wires_wf m) :
    (operatorInput nm inst = Except.ok (operator_bits_pure f inst.inputBits.reverse) ∧
     ∀ p, inst.inputBits.reverse.get? p = some none →
       (operator_bits_pure f inst.inputBits.reverse).get? p =
         some (SigBit.const BitState.Sz)) ∧
    ∃ m', operatorOutput nm inst m =
        Except.ok (out_bits_pure f m.nextId none inst.outputBits.reverse, m') ∧
      (out_bits_pure f m.nextId none inst.outputBits.reverse).length =
        inst.outputBits.reverse.length ∧
      (∀ p n, inst.outputBits.reverse.get? p = some (some n) →
        (out_bits_pure f m.nextId none inst.outputBits.reverse).get? p = some (f n)) ∧
      (∀ q w o, inst.outputBits.reverse.get? q = some none →
        (out_bits_pure f m.nextId none inst.outputBits.reverse).get? q =
          some (SigBit.wire w o) →
        m.nextId ≤ w) ∧
      (∀ p q, p ≤ q →
        (∀ j, p ≤ j → j ≤ q → inst.outputBits.reverse.get? j = some none) →
        ∃ w o1 o2,
          (out_bits_pure f m.nextId none inst.outputBits.reverse).get? p =
            some (SigBit.wire w o1) ∧
          (out_bits_pure f m.nextId none inst.outputBits.reverse).get? q =
            some (SigBit.wire w o2)) ∧
      (∀ p j q w1 o1 w2 o2, p < j → j < q →
        inst.outputBits.reverse.get? p = some none →
        (∃ n, inst.outputBits.reverse.get? j = some (some n)) →
        inst.outputBits.reverse.get? q = some none →
        (out_bits_pure f m.nextId none inst.outputBits.reverse).get? p =
          some (SigBit.wire w1 o1) →
        (out_bits_pure f m.nextId none inst.outputBits.reverse).get? q =
          some (SigBit.wire w2 o2) →
        w1 ≠ w2) := by
  constructor
  · constructor
    · exact operator_bits_ok nm f hf inst.inputBits.reverse
    · intro p hp
      simp only [operator_bits_pure, List.get?_map, hp, Option.map]
  · obtain ⟨m', hrun, _⟩ := operatorOutput_ok nm f hf inst m hwf
    refine ⟨m', hrun, out_bits_pure_length f _ _ _, ?_, ?_, ?_, ?_⟩
    · intro p n hp
      exact out_bits_pure_connected f _ _ _ _ _ hp
    · intro q w o hq hw
      rcases out_bits_pure_wire_src f inst.outputBits.reverse m.nextId none q w o hq hw with
        ⟨k0, hk⟩ | hge
      · simp at hk
      · exact hge
    · intro p q hpq hall
      exact out_bits_pure_share f _ _ _ _ _ hpq hall
    · intro p j q w1 o1 w2 o2 hpj hjq hp hj hq hw1 hw2
      exact Nat.ne_of_lt
        (out_bits_pure_separate f inst.outputBits.reverse m.nextId none p j q w1 o1 w2 o2
          (fun w0 k0 hk => by simp at hk) hpj hjq hp hj hq hw1 hw2)

/-- Concrete run of the C10 totality theorem: an operator instance with
unconnected input bits and two unconnected output runs translates without
error, unconnected inputs become Z, and the two runs get the distinct fresh
dummy wires 0 (two bits) and 1 (one bit). -/
theorem operator_partial_connection_total_witness :
    (∀ n, nmTest n = Except.ok (fTest n)) ∧ wires_wf emptyModule ∧
    operatorInput nmTest c10Inst =
      Except.ok [SigBit.const BitState.Sz, SigBit.const BitState.Sz,
        SigBit.wire 1000 2] ∧
    ∃ m', operatorOutput nmTest c10Inst emptyModule =
      Except.ok ([SigBit.wire 0 0, SigBit.wire 0 1, SigBit.wire 1000 3,
        SigBit.wire 1 0, SigBit.wire 1000 2], m') := by
  have h := operator_partial_connection_total nmTest fTest (fun n => rfl) c10Inst
    emptyModule (fun p hp => by simp [emptyModule] at hp)
  refine ⟨fun n => rfl, fun p hp => by simp [emptyModule] at hp, ?_, ?_⟩
  · rw [h.1.1]
    rfl
  · obtain ⟨m', hrun, _⟩ := h.2
    refine ⟨m', ?_⟩
    rw [hrun]
    rfl

end VerificImport
